import Mathlib

/-!
Verification development for the TOC-guided structural alignment core of
`build_book.py` (docx2navTree).

The Python source is shallowly embedded: each Python function is translated
into an executable Lean definition operating on `List Char` / `String`.
Regular-expression operations are translated pattern-by-pattern into
character-list scanners with the same leftmost-match, greedy semantics
(the texts handled here are single-line, so `.`/`$` newline subtleties do
not arise).  Python runtime errors (uncaught `ValueError` from `int("")`)
are modelled by `Option`: a `none` result of the parse means the Python
program aborts with an exception.

Plumbing that the core never inspects (docx decoding, file I/O, image
conversion) is outside the model; a content element is represented by the
data the core actually reads: its kind and its text.  A paragraph element
carries the (stripped) texts of the up-to-5 paragraphs that follow it in
the document, which is exactly the information `extract_number_and_title`
reads through its `doc, para_index` parameters.
-/

namespace BuildBook

/-! ## Character-level helpers (Python string/regex semantics, ASCII texts) -/

/-- Python `\s` whitespace class (ASCII). -/
def isPySpace (c : Char) : Bool :=
  c == ' ' || c == '\t' || c == '\n' || c == '\r' || c == '\x0b' || c == '\x0c'

/-- Python `\w` word-character class (ASCII). -/
def isWordChar (c : Char) : Bool :=
  c.isAlpha || c.isDigit || c == '_'

/-- Python `str.strip()`. -/
def pyStrip (cs : List Char) : List Char :=
  ((cs.dropWhile isPySpace).reverse.dropWhile isPySpace).reverse

/-- Split a run of leading digits (`\d+`, greedy) off a character list. -/
def takeDigits (cs : List Char) : List Char × List Char :=
  (cs.takeWhile Char.isDigit, cs.dropWhile Char.isDigit)

/-- Decimal value of a digit run. -/
def digitsToNat (ds : List Char) : Nat :=
  ds.foldl (fun n c => n * 10 + (c.toNat - 48)) 0

/-- Python `int(s)` on the digit/dot fragments produced by `split(".")`:
succeeds on a non-empty all-digit string, raises `ValueError` (modelled as
`none`) otherwise. -/
def pyInt (cs : List Char) : Option Nat :=
  if cs ≠ [] && cs.all Char.isDigit then some (digitsToNat cs) else none

/-- Python `s.split(".")`: split at every dot, keeping empty fragments. -/
def splitDotsAux : List Char → List Char → List (List Char)
  | [], acc => [acc.reverse]
  | c :: rest, acc =>
      if c == '.' then acc.reverse :: splitDotsAux rest []
      else splitDotsAux rest (c :: acc)

def splitDots (cs : List Char) : List (List Char) :=
  splitDotsAux cs []

/-- Index of the first occurrence of two consecutive dots, if any. -/
def findDotDot : List Char → Option Nat
  | [] => none
  | [_] => none
  | a :: b :: rest =>
      if a == '.' && b == '.' then some 0
      else (findDotDot (b :: rest)).map (· + 1)

/-- `re.sub(r"\s*\.{2,}.*$", "", text)`: cut the text at the leftmost
match, i.e. at the first `..` run extended left over whitespace. -/
def truncLeaderDots (cs : List Char) : List Char :=
  match findDotDot cs with
  | none => cs
  | some k => ((cs.take k).reverse.dropWhile isPySpace).reverse

/-- Case-insensitive literal match: consume `pat`, return the rest. -/
def matchCI : List Char → List Char → Option (List Char)
  | [], rest => some rest
  | _, [] => none
  | p :: ps, c :: cs => if c.toLower == p.toLower then matchCI ps cs else none

/-- `^Chapter\s+(\d+)\.0\s+(.+)` / `^Chapter\s+(\d+):\s+(.+)` (IGNORECASE):
rewrite a "Chapter N.0 title" or "Chapter N: title" prefix to "N.0 title". -/
def chapterRewrite (cs : List Char) : List Char :=
  match matchCI "chapter".data cs with
  | none => cs
  | some rest =>
      let ws := rest.takeWhile isPySpace
      if ws.isEmpty then cs else
      let r1 := rest.dropWhile isPySpace
      let (ds, r2) := takeDigits r1
      if ds.isEmpty then cs else
      match r2 with
      | '.' :: '0' :: r3 =>
          let ws2 := r3.takeWhile isPySpace
          let r4 := r3.dropWhile isPySpace
          if !ws2.isEmpty && !r4.isEmpty then ds ++ ('.' :: '0' :: ' ' :: r4) else cs
      | ':' :: r3 =>
          let ws2 := r3.takeWhile isPySpace
          let r4 := r3.dropWhile isPySpace
          if !ws2.isEmpty && !r4.isEmpty then ds ++ ('.' :: '0' :: ' ' :: r4) else cs
      | _ => cs

/-- Does `\d+\.\d+(?:\.\d+)?\s+[A-Z]` (the tail of the embedded-number
pattern, group 1 onward) match at the head of `cs`?  Greedy optional third
component, backtracking exactly as the regex engine does. -/
def embeddedTail (cs : List Char) : Bool :=
  let finishes (r : List Char) : Bool :=
    let ws := r.takeWhile isPySpace
    !ws.isEmpty &&
      (match r.dropWhile isPySpace with
       | c :: _ => c.isUpper
       | [] => false)
  let (d1, r1) := takeDigits cs
  if d1.isEmpty then false else
  match r1 with
  | '.' :: r2 =>
      let (d2, r3) := takeDigits r2
      if d2.isEmpty then false else
      let third : Option (List Char) :=
        match r3 with
        | '.' :: r4 =>
            let (d3, r5) := takeDigits r4
            if d3.isEmpty then none else some r5
        | _ => none
      (match third with
       | some r5 => finishes r5
       | none => false) || finishes r3
  | _ => false

/-- `re.search(r"\D\.(\d+\.\d+(?:\.\d+)?)\s+([A-Z])", text)`: absolute
index where group 1 starts at the leftmost match, if any. -/
def embeddedSearch : List Char → Option Nat
  | [] => none
  | c :: rest =>
      (if !c.isDigit then
         match rest with
         | '.' :: r2 => if embeddedTail r2 then some 2 else none
         | _ => none
       else none).orElse
        (fun _ => (embeddedSearch rest).map (· + 1))

/-- `re.sub(r"^[Il](\d)", r"1\1", text)`. -/
def ocrFixA : List Char → List Char
  | c :: d :: rest =>
      if (c == 'I' || c == 'l') && d.isDigit then '1' :: d :: rest
      else c :: d :: rest
  | cs => cs

/-- `re.sub(r"^(\d+)\.[Il]", r"\1.1", text)`. -/
def ocrFixB (cs : List Char) : List Char :=
  let (ds, r1) := takeDigits cs
  if ds.isEmpty then cs else
  match r1 with
  | '.' :: c :: rest =>
      if c == 'I' || c == 'l' then ds ++ ('.' :: '1' :: rest) else cs
  | _ => cs

/-- `re.sub(r"^(\d+)\.(\d+)\.[Il]", r"\1.\2.1", text)`. -/
def ocrFixC (cs : List Char) : List Char :=
  let (d1, r1) := takeDigits cs
  if d1.isEmpty then cs else
  match r1 with
  | '.' :: r2 =>
      let (d2, r3) := takeDigits r2
      if d2.isEmpty then cs else
      match r3 with
      | '.' :: c :: rest =>
          if c == 'I' || c == 'l' then d1 ++ ('.' :: (d2 ++ ('.' :: '1' :: rest)))
          else cs
      | _ => cs
  | _ => cs

/-- `re.sub(r"^(\d+)\.\s+(\d+)", r"\1.\2", text)`. -/
def ocrFixD (cs : List Char) : List Char :=
  let (d1, r1) := takeDigits cs
  if d1.isEmpty then cs else
  match r1 with
  | '.' :: r2 =>
      let ws := r2.takeWhile isPySpace
      if ws.isEmpty then cs else
      let r3 := r2.dropWhile isPySpace
      let (d2, r4) := takeDigits r3
      if d2.isEmpty then cs else d1 ++ ('.' :: (d2 ++ r4))
  | _ => cs

/-- Does `^\d+\.` match (lookahead lines that signal a fresh heading)? -/
def startsDigitDot (cs : List Char) : Bool :=
  let (ds, r) := takeDigits cs
  !ds.isEmpty &&
    (match r with
     | '.' :: _ => true
     | _ => false)

/-- The continuation-line loop of `extract_number_and_title` (offsets 1..5):
append each following stripped paragraph text as long as it is non-empty
and does not itself start with `\d+\.`. -/
def combineLookahead (base : List Char) : List String → List Char
  | [] => base
  | t :: rest =>
      let nt := t.data
      if !nt.isEmpty && !startsDigitDot nt then
        combineLookahead (base ++ (' ' :: nt)) rest
      else base

/-- `^(\d+)\.(\d+)\.(\d+)` followed by `\s+(.*)` (DOTALL variant) or
`\s*(.*?)$`: the three-component numbering pattern. -/
def patThree (dotall : Bool) (cs : List Char) : Option (Nat × Nat × Nat) :=
  let (d1, r1) := takeDigits cs
  if d1.isEmpty then none else
  match r1 with
  | '.' :: r2 =>
      let (d2, r3) := takeDigits r2
      if d2.isEmpty then none else
      match r3 with
      | '.' :: r4 =>
          let (d3, r5) := takeDigits r4
          if d3.isEmpty then none else
          if dotall && (r5.takeWhile isPySpace).isEmpty then none
          else some (digitsToNat d1, digitsToNat d2, digitsToNat d3)
      | _ => none
  | _ => none

/-- `^(\d+)\.(\d+)` followed by `\s+(.*)` (DOTALL variant) or `\s*(.*?)$`:
the two-component numbering pattern. -/
def patTwo (dotall : Bool) (cs : List Char) : Option (Nat × Nat) :=
  let (d1, r1) := takeDigits cs
  if d1.isEmpty then none else
  match r1 with
  | '.' :: r2 =>
      let (d2, r3) := takeDigits r2
      if d2.isEmpty then none else
      if dotall && (r3.takeWhile isPySpace).isEmpty then none
      else some (digitsToNat d1, digitsToNat d2)
  | _ => none

/-- `extract_number_and_title(text, doc, para_index)`.  `look = some l`
is the paragraph case (`l` = stripped texts of the next ≤5 paragraphs);
`look = none` is the `doc=None` table-cell case, which uses the DOTALL
pattern variants and no lookahead. -/
def extract_number_and_title (text : String) (look : Option (List String)) :
    Option (Nat × Nat × Option Nat × String) :=
  if text.data.isEmpty then none else
  let cs0 := pyStrip (truncLeaderDots text.data)
  let cs1 := chapterRewrite cs0
  let cs2 :=
    match embeddedSearch cs1 with
    | some i => cs1.drop i
    | none => cs1
  let cs3 := ocrFixD (ocrFixC (ocrFixB (ocrFixA cs2)))
  let combined :=
    match look with
    | some l => combineLookahead cs3 l
    | none => cs3
  let dotall := look.isNone
  match patThree dotall combined with
  | some (a, b, c) => some (a, b, some c, String.mk combined)
  | none =>
      match patTwo dotall combined with
      | some (a, b) => some (a, b, none, String.mk combined)
      | none => none

/-! ## `normalize_for_comparison` and title stripping -/

/-- `re.sub(r"\b[Il](\d)", r"1\1", text)` — replace a word-initial `I`/`l`
followed by a digit with `1`; the boolean argument records whether the
previous character was a word character (no `\b` there). -/
def subWordIl : List Char → Bool → List Char
  | [], _ => []
  | [c], _ => [c]
  | c :: d :: rest, prevWord =>
      if (c == 'I' || c == 'l') && !prevWord && d.isDigit then
        '1' :: d :: subWordIl rest true
      else c :: subWordIl (d :: rest) (isWordChar c)

/-- `re.sub(r"\b[O](\d)", r"0\1", text)`. -/
def subWordO : List Char → Bool → List Char
  | [], _ => []
  | [c], _ => [c]
  | c :: d :: rest, prevWord =>
      if c == 'O' && !prevWord && d.isDigit then
        '0' :: d :: subWordO rest true
      else c :: subWordO (d :: rest) (isWordChar c)

/-- `re.sub(r"\s+", " ", text)`: the boolean records whether the previous
character was whitespace (already emitted as the single `' '`). -/
def collapseWs : List Char → Bool → List Char
  | [], _ => []
  | c :: rest, inRun =>
      if isPySpace c then
        if inRun then collapseWs rest true
        else ' ' :: collapseWs rest true
      else c :: collapseWs rest false

/-- `normalize_for_comparison(text)`: lowercase, OCR fixes, whitespace
collapse, strip. -/
def normalize_for_comparison (text : String) : String :=
  if text.data.isEmpty then "" else
  let cs := text.data.map Char.toLower
  let cs := subWordIl cs false
  let cs := subWordO cs false
  String.mk (pyStrip (collapseWs cs false))

/-- `re.sub(r"^\d+\.\d+(?:\.\d+)?\s*", "", s)`: strip a leading numbering
(greedy optional third component) and following whitespace. -/
def stripNumberingLead (cs : List Char) : List Char :=
  let (d1, r1) := takeDigits cs
  if d1.isEmpty then cs else
  match r1 with
  | '.' :: r2 =>
      let (d2, r3) := takeDigits r2
      if d2.isEmpty then cs else
      let afterOpt : List Char :=
        match r3 with
        | '.' :: r4 =>
            let (d3, r5) := takeDigits r4
            if d3.isEmpty then r3 else r5
        | _ => r3
      afterOpt.dropWhile isPySpace
  | _ => cs

/-! ## `is_toc_false_positive` -/

/-- Word boundary `\b` after a matched group: the last consumed character
and the next character must differ in word-ness (end of string counts as
non-word). -/
def boundaryAfter (lastChar : Char) (rest : List Char) : Bool :=
  let nextWord :=
    match rest with
    | [] => false
    | c :: _ => isWordChar c
  isWordChar lastChar != nextWord

/-- The unit alternation `(mg|ml|kg|g(?!\w)|lb|%|cc)\b` (IGNORECASE),
alternatives tried left to right, each followed by the boundary check. -/
def unitAlt (r : List Char) : Bool :=
  let two (a b : Char) : Bool :=
    match r with
    | x :: y :: rest => x.toLower == a && y.toLower == b && boundaryAfter y rest
    | _ => false
  let oneG : Bool :=
    match r with
    | x :: rest =>
        x.toLower == 'g' &&
          (match rest with
           | [] => true
           | c :: _ => !isWordChar c)
    | _ => false
  let onePercent : Bool :=
    match r with
    | x :: rest => x == '%' && boundaryAfter x rest
    | _ => false
  two 'm' 'g' || two 'm' 'l' || two 'k' 'g' || oneG || two 'l' 'b' ||
    onePercent || two 'c' 'c'

/-- `\d+\.\d+\s*` then a given tail matcher, anchored at this position. -/
def numThenTail (tail : List Char → Bool) (cs : List Char) : Bool :=
  let (d1, r1) := takeDigits cs
  if d1.isEmpty then false else
  match r1 with
  | '.' :: r2 =>
      let (d2, r3) := takeDigits r2
      if d2.isEmpty then false else tail (r3.dropWhile isPySpace)
  | _ => false

/-- `re.search`: try the anchored matcher at every start position. -/
def searchAny (p : List Char → Bool) : List Char → Bool
  | [] => p []
  | c :: rest => p (c :: rest) || searchAny p rest

/-- The age/duration alternation `(year|month|week|day|hour)` (IGNORECASE),
no trailing boundary. -/
def ageAlt (r : List Char) : Bool :=
  let lit (w : String) : Bool := (matchCI w.data r).isSome
  lit "year" || lit "month" || lit "week" || lit "day" || lit "hour"

/-- `re.match(r"^0\.\d+\s", text)`. -/
def decimalZeroStart (cs : List Char) : Bool :=
  match cs with
  | '0' :: '.' :: r =>
      let (ds, r2) := takeDigits r
      !ds.isEmpty &&
        (match r2 with
         | c :: _ => isPySpace c
         | [] => false)
  | _ => false

/-- `re.sub(r"^\d+\.\s*\d+(?:\.\s*\d+)?\s*", "", text)`: strip a leading
numbering allowing spaces after the dots. -/
def stripNumWithSpaces (cs : List Char) : List Char :=
  let (d1, r1) := takeDigits cs
  if d1.isEmpty then cs else
  match r1 with
  | '.' :: r2 =>
      let r2b := r2.dropWhile isPySpace
      let (d2, r3) := takeDigits r2b
      if d2.isEmpty then cs else
      let afterOpt : List Char :=
        match r3 with
        | '.' :: r4 =>
            let r4b := r4.dropWhile isPySpace
            let (d3, r5) := takeDigits r4b
            if d3.isEmpty then r3 else r5
        | _ => r3
      afterOpt.dropWhile isPySpace
  | _ => cs

/-- Python quotation-mark set `"\"''“”‘’"`. -/
def isQuoteChar (c : Char) : Bool :=
  c == '"' || c == '\'' || c == '“' || c == '”' ||
    c == '‘' || c == '’'

/-- `is_toc_false_positive(text, entry_type, chapter, section, subsection)`.
`entry_type`, `sec` and `subsec` are accepted but unused, as in the source. -/
def is_toc_false_positive (text : String) (entry_type : String) (chapter : Nat)
    (sec : Option Nat) (subsec : Option Nat) : Bool :=
  let _ := entry_type
  let _ := sec
  let _ := subsec
  let cs := text.data
  if searchAny (numThenTail unitAlt) cs then true
  else if searchAny (numThenTail ageAlt) cs then true
  else if decimalZeroStart cs then true
  else if chapter == 0 then true
  else
    let text_after_number := stripNumWithSpaces cs
    if text_after_number.length < 3 then true
    else
      match text_after_number with
      | c :: _ => !(c.isUpper || isQuoteChar c)
      | [] => false

/-! ## `load_exceptions` -/

/-- `line.split("=", 1)`: split at the first `=`; `none` if no `=`. -/
def splitFirstEq (cs : List Char) : Option (List Char × List Char) :=
  match cs with
  | [] => none
  | c :: rest =>
      if c == '=' then some ([], rest)
      else (splitFirstEq rest).map (fun p => (c :: p.1, p.2))

/-- `re.match(r"^([\d.]+)", s)`: longest non-empty prefix of digits/dots. -/
def takeNumChars (cs : List Char) : Option (List Char) :=
  let p := cs.takeWhile (fun c => c.isDigit || c == '.')
  if p.isEmpty then none else some p

/-- Python-dict insertion: overwrite in place, else append at the end. -/
def insertExc (m : List (String × String)) (k v : String) : List (String × String) :=
  if m.any (fun p => p.1 == k) then
    m.map (fun p => if p.1 == k then (k, v) else p)
  else m ++ [(k, v)]

/-- Dict lookup. -/
def lookupStr (m : List (String × String)) (k : String) : Option String :=
  match m with
  | [] => none
  | (a, v) :: rest => if a == k then some v else lookupStr rest k

/-- `load_exceptions`: the per-line parsing loop, over the file's lines. -/
def load_exceptions (lines : List String) : List (String × String) :=
  lines.foldl
    (fun exceptions line =>
      let l := pyStrip line.data
      if l.isEmpty then exceptions
      else if l.head? == some '#' then exceptions
      else
        match splitFirstEq l with
        | none => exceptions
        | some (w, c) =>
            let wrong_part := pyStrip w
            let correct_part := pyStrip c
            match takeNumChars wrong_part, takeNumChars correct_part with
            | some wn, some cn => insertExc exceptions (String.mk wn) (String.mk cn)
            | _, _ => exceptions)
    []

/-! ## Data model -/

/-- One entry of the expected sequence produced by `build_toc_structure`:
`{"type", "chapter", "section", "subsection", "title", "title_normalized"}`.
(`section` is a Lean keyword, so the fields are `sec`/`subsec`.) -/
structure ExpectedEntry where
  etype : String
  chap : Nat
  sec : Nat
  subsec : Option Nat
  title : String
  title_normalized : String
deriving DecidableEq, Repr

/-- `build_toc_structure(toc_entries)`: copy the fields and attach the
normalized title.  Input tuples are (type, chapter, section, subsection,
title). -/
def build_toc_structure (toc_entries : List (String × Nat × Nat × Option Nat × String)) :
    List ExpectedEntry :=
  toc_entries.map fun e =>
    { etype := e.1
      chap := e.2.1
      sec := e.2.2.1
      subsec := e.2.2.2.1
      title := e.2.2.2.2
      title_normalized := normalize_for_comparison e.2.2.2.2 }

/-- A content element as yielded by `get_document_elements_in_order`,
reduced to the data the core reads.  A `para` carries the stripped texts
of the up-to-5 paragraphs following it in the document (what
`extract_number_and_title` reads via `doc`/`para_index`); `cell` is a
table-cell header candidate (parsed with `doc=None`); `table` and `image`
are opaque content, identified by their index. -/
inductive Source where
  | para (text : String) (lookahead : List String)
  | cell (text : String)
  | table (index : Nat)
  | image (index : Nat)
deriving DecidableEq, Repr

/-- `source["type"]` as a string tag. -/
def sourceTag : Source → String
  | .para _ _ => "paragraph"
  | .cell _ => "table_cell"
  | .table _ => "table"
  | .image _ => "image"

/-- The `(elem_type, element_obj)` pair appended to an element list. -/
abbrev Entry := String × Source

/-- The parse tries numbering extraction only on paragraphs and table
cells (lines 741–747). -/
def parseSource : Source → Option (Nat × Nat × Option Nat × String)
  | .para text look => extract_number_and_title text (some look)
  | .cell text => extract_number_and_title text none
  | .table _ => none
  | .image _ => none

/-- An element-list map (`chapter_elements` etc.): a Python dict as an
insertion-ordered association list with unique keys. -/
def lookupKey {k : Type} [DecidableEq k] : List (k × List Entry) → k → Option (List Entry)
  | [], _ => none
  | (a, l) :: rest, key => if a = key then some l else lookupKey rest key

/-- `m[key].append(e)` — append to the entry of `key` (present keys only). -/
def appendKey {k : Type} [DecidableEq k] : List (k × List Entry) → k → Entry →
    List (k × List Entry)
  | [], _, _ => []
  | (a, l) :: rest, key, e =>
      (a, if a = key then l ++ [e] else l) :: appendKey rest key e

/-- `if key not in m: m[key] = []` — create an empty entry if absent
(new dict keys go at the end, preserving insertion order). -/
def ensureKey {k : Type} [DecidableEq k] (m : List (k × List Entry)) (key : k) :
    List (k × List Entry) :=
  if (lookupKey m key).isSome then m else m ++ [(key, [])]

/-- `if key in m: m[key].append(e)` (the content branch, lines 934–952). -/
def appendIfKey {k : Type} [DecidableEq k] (m : List (k × List Entry)) (key : k)
    (e : Entry) : List (k × List Entry) :=
  if (lookupKey m key).isSome then appendKey m key e else m

/-- The mutable state of `parse_document_structure`.  The nested
`chapters` dict is omitted: its chapter/section/subsection key sets are
created in lock-step with `chapter_elements`/`section_elements`/
`subsection_elements` (lines 874–876, 890–896, 910–925), so its keys are
exactly the keys of the three element maps. -/
structure ParseState where
  expectedIndex : Nat
  foundCount : Nat
  currentChapter : Option Nat
  currentSection : Option Nat
  currentSubsection : Option Nat
  chapterElems : List (Nat × List Entry)
  sectionElems : List ((Nat × Nat) × List Entry)
  subsectionElems : List ((Nat × Nat × Nat) × List Entry)
deriving DecidableEq, Repr

def initState : ParseState :=
  { expectedIndex := 0
    foundCount := 0
    currentChapter := none
    currentSection := none
    currentSubsection := none
    chapterElems := []
    sectionElems := []
    subsectionElems := [] }

/-! ## The aligner -/

/-- `f"{chapter}.{section}"` plus optional `".{subsection}"`. -/
def numString (chapter sec : Nat) (subsec : Option Nat) : String :=
  let base := toString chapter ++ "." ++ toString sec
  match subsec with
  | some u => base ++ "." ++ toString u
  | none => base

/-- Lines 753–768: look the parsed numbering up in the exception table
and re-split the replacement.  `none` models the uncaught `ValueError`
raised by `int("")` on a malformed fragment. -/
def applyExceptions (exceptions : List (String × String)) (chapter sec : Nat)
    (subsec : Option Nat) : Option (Nat × Nat × Option Nat) :=
  match lookupStr exceptions (numString chapter sec subsec) with
  | none => some (chapter, sec, subsec)
  | some correct_num =>
      match splitDots correct_num.data with
      | [a, b, c] => do
          let x ← pyInt a
          let y ← pyInt b
          let z ← pyInt c
          pure (x, y, some z)
      | [a, b] => do
          let x ← pyInt a
          let y ← pyInt b
          -- `subsection = None if section != 0 else None` — always None
          pure (x, y, (none : Option Nat))
      | _ => some (chapter, sec, subsec)

/-- The stripped normalized candidate title used by cases 2 and 3:
`re.sub(r"^\d+\.\d+(?:\.\d+)?\s*", "", normalize_for_comparison(full_text))`. -/
def candTitleOnly (full_text : String) : List Char :=
  stripNumberingLead (normalize_for_comparison full_text).data

/-- Python substring containment `a in b` (contiguous; `""` is in
everything). -/
def isSubstring (needle : List Char) : List Char → Bool
  | [] => needle.isEmpty
  | c :: rest => needle.isPrefixOf (c :: rest) || isSubstring needle rest

/-- The per-entry test of the fuzzy-relocation loop (lines 821–825):
substring containment either way (or equality) plus candidate length > 3. -/
def titleCondFuzzy (tTitle : List Char) (e : ExpectedEntry) : Bool :=
  let lTitle := stripNumberingLead e.title_normalized.data
  (isSubstring tTitle lTitle || isSubstring lTitle tTitle || tTitle == lTitle) &&
    tTitle.length > 3

/-- The fuzzy-relocation scan over `range(i, stop)`, with `stop - i` as
fuel: first index whose entry passes `titleCondFuzzy` (lines 812–827). -/
def findTitleMatchAux (expected : List ExpectedEntry) (tTitle : List Char)
    (i : Nat) : Nat → Option (Nat × ExpectedEntry)
  | 0 => none
  | fuel + 1 =>
      match expected[i]? with
      | some e =>
          if titleCondFuzzy tTitle e then some (i, e)
          else findTitleMatchAux expected tTitle (i + 1) fuel
      | none => none

/-- `for look_idx in range(expected_index, min(expected_index + 5, len))`. -/
def findTitleMatchFrom (expected : List ExpectedEntry) (tTitle : List Char)
    (i stop : Nat) : Option (Nat × ExpectedEntry) :=
  findTitleMatchAux expected tTitle i (stop - i)

/-- Numbering equality against an expected entry. -/
def numberingMatches (e : ExpectedEntry) (chapter sec : Nat) (subsec : Option Nat) : Bool :=
  e.chap == chapter && e.sec == sec && e.subsec == subsec

/-- The orphan-validation title test (lines 856–859): candidate length > 3
and substring containment either way. -/
def titleCondOrphan (tTitle : List Char) (e : ExpectedEntry) : Bool :=
  let lTitle := stripNumberingLead e.title_normalized.data
  tTitle.length > 3 && (isSubstring tTitle lTitle || isSubstring lTitle tTitle)

/-- Orphan validation (lines 836–861): scan for the first entry whose
numbering equals the candidate's; the `break` runs after that entry's
title check, so later duplicates are never consulted. -/
def foundInToc (expected : List ExpectedEntry) (chapter sec : Nat)
    (subsec : Option Nat) (tTitle : List Char) : Bool :=
  match expected.find? (fun e => numberingMatches e chapter sec subsec) with
  | some e => titleCondOrphan tTitle e
  | none => false

/-- `elem_type = "table_cell" if source["type"] == "table_cell" else
"paragraph"` (lines 879–881), paired with the element itself. -/
def headingEntry (src : Source) : Entry :=
  (match src with
   | Source.cell _ => "table_cell"
   | _ => "paragraph", src)

/-- Lines 868–933: a confirmed heading updates the current pointers,
creates the node for its key if absent, and appends its own source
element to that node. -/
def acceptHeading (st : ParseState) (chapter sec : Nat) (subsec : Option Nat)
    (src : Source) : ParseState :=
  let entry : Entry := headingEntry src
  if sec = 0 then
    { st with
      currentChapter := some chapter
      currentSection := none
      currentSubsection := none
      chapterElems := appendKey (ensureKey st.chapterElems chapter) chapter entry }
  else
    match subsec with
    | none =>
        { st with
          currentChapter := some chapter
          currentSection := some sec
          currentSubsection := none
          chapterElems := ensureKey st.chapterElems chapter
          sectionElems :=
            appendKey (ensureKey st.sectionElems (chapter, sec)) (chapter, sec) entry }
    | some u =>
        { st with
          currentChapter := some chapter
          currentSection := some sec
          currentSubsection := some u
          chapterElems := ensureKey st.chapterElems chapter
          sectionElems := ensureKey st.sectionElems (chapter, sec)
          subsectionElems :=
            appendKey (ensureKey st.subsectionElems (chapter, sec, u))
              (chapter, sec, u) entry }

/-- Lines 934–952: a non-numbered element is appended to the currently
open node, or dropped when no chapter is open.  The dict lookups use
int-tuple keys, so a `None` current pointer can never hit a key. -/
def appendContent (st : ParseState) (src : Source) : ParseState :=
  let entry : Entry := (sourceTag src, src)
  match st.currentChapter with
  | none => st
  | some cc =>
      match st.currentSubsection with
      | some cu =>
          match st.currentSection with
          | some cs =>
              { st with subsectionElems := appendIfKey st.subsectionElems (cc, cs, cu) entry }
          | none => st
      | none =>
          match st.currentSection with
          | some cs =>
              { st with sectionElems := appendIfKey st.sectionElems (cc, cs) entry }
          | none =>
              { st with chapterElems := appendIfKey st.chapterElems cc entry }

/-- One iteration of the main loop of `parse_document_structure`
(lines 728–952) on a single source element.  `none` propagates the
uncaught `ValueError` of a malformed exception replacement. -/
def step (expected : List ExpectedEntry) (exceptions : List (String × String))
    (st : ParseState) (src : Source) : Option ParseState :=
  match parseSource src with
  | none => some (appendContent st src)
  | some (chapter0, sec0, subsec0, full_text) =>
      match applyExceptions exceptions chapter0 sec0 subsec0 with
      | none => none
      | some (chapter, sec, subsec) =>
          let st := { st with foundCount := st.foundCount + 1 }
          if h : st.expectedIndex < expected.length then
            let expectedEntry := expected[st.expectedIndex]
            if numberingMatches expectedEntry chapter sec subsec then
              -- Case 1: exact match; cursor advances by 1.
              some (acceptHeading { st with expectedIndex := st.expectedIndex + 1 }
                chapter sec subsec src)
            else
              let tTitle := candTitleOnly full_text
              match findTitleMatchFrom expected tTitle st.expectedIndex
                  (min (st.expectedIndex + 5) expected.length) with
              | some (matchIdx, matchEntry) =>
                  -- Case 2: fuzzy relocation; adopt the entry's numbering.
                  some (acceptHeading { st with expectedIndex := matchIdx + 1 }
                    matchEntry.chap matchEntry.sec matchEntry.subsec src)
              | none =>
                  if foundInToc expected chapter sec subsec tTitle then
                    -- Case 3: orphan validation; own numbering, cursor unmoved.
                    some (acceptHeading st chapter sec subsec src)
                  else
                    -- Case 4: rejection; `found_count -= 1` then `continue`.
                    some { st with foundCount := st.foundCount - 1 }
          else
            -- Cursor at/after the end of the expected sequence: the
            -- validation block is skipped and the candidate is accepted.
            some (acceptHeading st chapter sec subsec src)

/-- `parse_document_structure`, folded over the element stream. -/
def parse_document_structure (expected : List ExpectedEntry)
    (exceptions : List (String × String)) (stream : List Source) :
    Option ParseState :=
  stream.foldlM (step expected exceptions) initState

/-- Does the final structure contain a node for this confirmed key? -/
def nodeExists (st : ParseState) (chapter sec : Nat) (subsec : Option Nat) : Bool :=
  if sec = 0 then (lookupKey st.chapterElems chapter).isSome
  else
    match subsec with
    | none => (lookupKey st.sectionElems (chapter, sec)).isSome
    | some u => (lookupKey st.subsectionElems (chapter, sec, u)).isSome

/-- The `(type, element)` pair a source element contributes wherever it is
appended: headings are tagged `"paragraph"`/`"table_cell"` (lines 879–881,
899–901, 928–930), content elements by `source["type"]` (lines 941, 946,
951) — the same tag in both cases. -/
def entryOf (src : Source) : Entry := (sourceTag src, src)

/-! ## Concrete streams and expected sequences used by the claims -/

/-- Expected sequence `[(1,0),(1,1),(1,2)]` with titles, as
`build_toc_structure` produces it. -/
def expC4 : List ExpectedEntry := build_toc_structure
  [("chapter", 1, 0, none, "1.0 Alpha Intro"),
   ("section", 1, 1, none, "1.1 Beta Methods"),
   ("section", 1, 2, none, "1.2 Gamma Results")]

def streamC4 : List Source :=
  [.para "1.0 Alpha Intro" [], .para "1.1 Beta Methods" [],
   .para "1.2 Gamma Results" []]

/-- Expected entry `(2,1,"Vaccination Protocols")` for the fuzzy-relocation
example. -/
def expC5 : List ExpectedEntry := build_toc_structure
  [("section", 2, 1, none, "2.1 Vaccination Protocols")]

/-- Expected sequence with duplicate numbering `(1,1)`: the first
occurrence (index 1) has a title failing the containment test, the second
(index 6, outside the 5-entry fuzzy window) passes it. -/
def expC2 : List ExpectedEntry := build_toc_structure
  [("chapter", 9, 0, none, "9.0 Misc Stuff"),
   ("section", 1, 1, none, "1.1 Zz"),
   ("section", 9, 2, none, "9.2 Other Apples"),
   ("section", 9, 3, none, "9.3 Other Bananas"),
   ("section", 9, 4, none, "9.4 Other Cherries"),
   ("section", 9, 5, none, "9.5 Other Dates"),
   ("section", 1, 1, none, "1.1 Good Title Here")]

/-- Two-chapter expected sequence; the stream confirms chapter 1, then
offers a candidate `(7,7)` failing all three acceptance paths, then plain
content. -/
def expC3 : List ExpectedEntry := build_toc_structure
  [("chapter", 1, 0, none, "1.0 Alpha Intro"),
   ("chapter", 2, 0, none, "2.0 Beta Stuff")]

def streamC3 : List Source :=
  [.para "1.0 Alpha Intro" [], .para "7.7 Qqqq qqq" [], .para "hello there" []]

/-- The final state of the C3 run over `streamC3`. -/
def stC3fin : ParseState :=
  { expectedIndex := 1
    foundCount := 1
    currentChapter := some 1
    currentSection := none
    currentSubsection := none
    chapterElems := [(1, [("paragraph", Source.para "1.0 Alpha Intro" []),
                          ("paragraph", Source.para "hello there" [])])]
    sectionElems := []
    subsectionElems := [] }

/-- The state of the C3 run after the first heading confirmed chapter 1. -/
def stC3mid : ParseState :=
  { expectedIndex := 1
    foundCount := 1
    currentChapter := some 1
    currentSection := none
    currentSubsection := none
    chapterElems := [(1, [("paragraph", Source.para "1.0 Alpha Intro" [])])]
    sectionElems := []
    subsectionElems := [] }

/-! ## Association-map lemmas -/

theorem lookupKey_appendKey {k : Type} [DecidableEq k] (m : List (k × List Entry))
    (key key' : k) (e : Entry) :
    lookupKey (appendKey m key e) key' =
      if key' = key then (lookupKey m key').map (· ++ [e]) else lookupKey m key' := by
  induction m with
  | nil => by_cases h : key' = key <;> simp [appendKey, lookupKey, h]
  | cons p rest ih =>
      obtain ⟨a, l⟩ := p
      simp only [appendKey, lookupKey]
      by_cases hk : a = key'
      · subst hk
        rw [if_pos rfl]
        by_cases hak : a = key
        · subst hak
          simp [lookupKey]
        · simp [lookupKey, hak]
      · rw [if_neg hk, ih]
        simp [lookupKey, hk]

theorem lookupKey_append {k : Type} [DecidableEq k] (m m' : List (k × List Entry))
    (key : k) :
    lookupKey (m ++ m') key =
      match lookupKey m key with
      | some l => some l
      | none => lookupKey m' key := by
  induction m with
  | nil => simp [lookupKey]
  | cons p rest ih =>
      obtain ⟨a, l⟩ := p
      by_cases hk : a = key
      · simp [lookupKey, hk]
      · simp [lookupKey, hk, ih]

theorem lookupKey_ensureKey_self {k : Type} [DecidableEq k]
    (m : List (k × List Entry)) (key : k) :
    lookupKey (ensureKey m key) key = some ((lookupKey m key).getD []) := by
  unfold ensureKey
  cases h : lookupKey m key with
  | some l => simp [h]
  | none =>
      rw [if_neg (by simp [h]), lookupKey_append, h]
      simp [lookupKey]

theorem lookupKey_ensureKey_other {k : Type} [DecidableEq k]
    (m : List (k × List Entry)) (key key' : k) (h : key' ≠ key) :
    lookupKey (ensureKey m key) key' = lookupKey m key' := by
  unfold ensureKey
  cases hm : lookupKey m key with
  | some l => simp
  | none =>
      rw [if_neg (by simp [hm]), lookupKey_append]
      cases hx : lookupKey m key' with
      | some l => simp
      | none =>
          have h2 : key ≠ key' := Ne.symm h
          simp [lookupKey, h2]

theorem lookupKey_isSome_appendKey {k : Type} [DecidableEq k]
    (m : List (k × List Entry)) (key key' : k) (e : Entry) :
    (lookupKey (appendKey m key e) key').isSome = (lookupKey m key').isSome := by
  rw [lookupKey_appendKey]
  by_cases h : key' = key <;> simp [h]

theorem lookupKey_isSome_ensureKey {k : Type} [DecidableEq k]
    (m : List (k × List Entry)) (key key' : k) (h : (lookupKey m key').isSome) :
    (lookupKey (ensureKey m key) key').isSome := by
  by_cases hk : key' = key
  · subst hk; rw [lookupKey_ensureKey_self]; rfl
  · rwa [lookupKey_ensureKey_other _ _ _ hk]

theorem lookupKey_isSome_appendIfKey {k : Type} [DecidableEq k]
    (m : List (k × List Entry)) (key key' : k) (e : Entry) :
    (lookupKey (appendIfKey m key e) key').isSome = (lookupKey m key').isSome := by
  unfold appendIfKey
  by_cases h : (lookupKey m key).isSome
  · simp [h, lookupKey_isSome_appendKey]
  · simp [h]

theorem keys_appendKey {k : Type} [DecidableEq k] (m : List (k × List Entry))
    (key : k) (e : Entry) :
    (appendKey m key e).map Prod.fst = m.map Prod.fst := by
  induction m with
  | nil => rfl
  | cons p rest ih =>
      obtain ⟨a, l⟩ := p
      simp [appendKey, ih]

theorem lookupKey_isSome_iff_mem {k : Type} [DecidableEq k]
    (m : List (k × List Entry)) (key : k) :
    (lookupKey m key).isSome ↔ key ∈ m.map Prod.fst := by
  induction m with
  | nil => simp [lookupKey]
  | cons p rest ih =>
      obtain ⟨a, l⟩ := p
      by_cases hk : a = key
      · simp [lookupKey, hk]
      · simp [lookupKey, hk, ih, Ne.symm hk]

theorem keys_ensureKey_nodup {k : Type} [DecidableEq k]
    (m : List (k × List Entry)) (key : k)
    (h : (m.map Prod.fst).Nodup) :
    ((ensureKey m key).map Prod.fst).Nodup := by
  unfold ensureKey
  by_cases hs : (lookupKey m key).isSome
  · simp [hs, h]
  · have hmem : key ∉ m.map Prod.fst := by
      rw [← lookupKey_isSome_iff_mem]
      simpa using hs
    rw [if_neg hs, List.map_append]
    refine List.Nodup.append h (List.nodup_singleton _) ?_
    intro x hx hy
    simp at hy
    subst hy
    exact hmem hx

theorem keys_appendIfKey {k : Type} [DecidableEq k] (m : List (k × List Entry))
    (key : k) (e : Entry) :
    (appendIfKey m key e).map Prod.fst = m.map Prod.fst := by
  unfold appendIfKey
  by_cases hs : (lookupKey m key).isSome
  · simp [hs, keys_appendKey]
  · simp [hs]

/-! ## `foldlM` invariant machinery (Option monad) -/

theorem foldlM_option_inv {σ α : Type} (f : σ → α → Option σ) (P : σ → Prop)
    (hstep : ∀ s a s', f s a = some s' → P s → P s') :
    ∀ (l : List α) (s s' : σ), List.foldlM f s l = some s' → P s → P s' := by
  intro l
  induction l with
  | nil => intro s s' h hp; simp [List.foldlM] at h; rwa [← h]
  | cons a rest ih =>
      intro s s' h hp
      rw [List.foldlM_cons] at h
      cases hfa : f s a with
      | none => rw [hfa] at h; simp at h
      | some t =>
          rw [hfa] at h
          simp only [Option.bind_eq_bind, Option.some_bind] at h
          exact ih t s' h (hstep s a t hfa hp)

theorem foldlM_option_inv_pre {σ α : Type} (f : σ → α → Option σ)
    (P : σ → List α → Prop)
    (hstep : ∀ s a s' pre, f s a = some s' → P s pre → P s' (pre ++ [a])) :
    ∀ (l pre : List α) (s s' : σ), List.foldlM f s l = some s' → P s pre →
      P s' (pre ++ l) := by
  intro l
  induction l with
  | nil => intro pre s s' h hp; simp [List.foldlM] at h; simpa [← h] using hp
  | cons a rest ih =>
      intro pre s s' h hp
      rw [List.foldlM_cons] at h
      cases hfa : f s a with
      | none => rw [hfa] at h; simp at h
      | some t =>
          rw [hfa] at h
          simp only [Option.bind_eq_bind, Option.some_bind] at h
          have := ih (pre ++ [a]) t s' h (hstep s a t pre hfa hp)
          simpa using this

/-! ## Characterizing the branches of `step` -/

theorem step_content (expected : List ExpectedEntry) (exc : List (String × String))
    (st : ParseState) (src : Source) (h : parseSource src = none) :
    step expected exc st src = some (appendContent st src) := by
  unfold step
  rw [h]

theorem step_crash (expected : List ExpectedEntry) (exc : List (String × String))
    (st : ParseState) (src : Source) (c s : Nat) (ss : Option Nat) (t : String)
    (hp : parseSource src = some (c, s, ss, t))
    (ha : applyExceptions exc c s ss = none) :
    step expected exc st src = none := by
  simp only [step, hp, ha]

theorem step_bypass (expected : List ExpectedEntry) (exc : List (String × String))
    (st : ParseState) (src : Source) (c s : Nat) (ss : Option Nat) (t : String)
    (c' s' : Nat) (ss' : Option Nat)
    (hp : parseSource src = some (c, s, ss, t))
    (ha : applyExceptions exc c s ss = some (c', s', ss'))
    (hei : ¬st.expectedIndex < expected.length) :
    step expected exc st src =
      some (acceptHeading { st with foundCount := st.foundCount + 1 } c' s' ss' src) := by
  simp only [step, hp, ha]
  split
  · exact absurd (by assumption) hei
  · rfl

theorem step_exact (expected : List ExpectedEntry) (exc : List (String × String))
    (st : ParseState) (src : Source) (c s : Nat) (ss : Option Nat) (t : String)
    (c' s' : Nat) (ss' : Option Nat) (e : ExpectedEntry)
    (hp : parseSource src = some (c, s, ss, t))
    (ha : applyExceptions exc c s ss = some (c', s', ss'))
    (hget : expected[st.expectedIndex]? = some e)
    (hm : numberingMatches e c' s' ss' = true) :
    step expected exc st src =
      some (acceptHeading
        { st with foundCount := st.foundCount + 1, expectedIndex := st.expectedIndex + 1 }
        c' s' ss' src) := by
  have hlt : st.expectedIndex < expected.length := by
    by_contra hcon
    rw [List.getElem?_eq_none (by omega)] at hget
    cases hget
  have hval : expected[st.expectedIndex] = e := by
    rw [List.getElem?_eq_getElem hlt] at hget
    exact Option.some.inj hget
  simp only [step, hp, ha]
  split
  · rw [hval, hm]
    rfl
  · exact absurd hlt (by assumption)

theorem step_fuzzy (expected : List ExpectedEntry) (exc : List (String × String))
    (st : ParseState) (src : Source) (c s : Nat) (ss : Option Nat) (t : String)
    (c' s' : Nat) (ss' : Option Nat) (eCur : ExpectedEntry) (j : Nat) (e : ExpectedEntry)
    (hp : parseSource src = some (c, s, ss, t))
    (ha : applyExceptions exc c s ss = some (c', s', ss'))
    (hget : expected[st.expectedIndex]? = some eCur)
    (hnm : numberingMatches eCur c' s' ss' = false)
    (hscan : findTitleMatchFrom expected (candTitleOnly t) st.expectedIndex
        (min (st.expectedIndex + 5) expected.length) = some (j, e)) :
    step expected exc st src =
      some (acceptHeading
        { st with foundCount := st.foundCount + 1, expectedIndex := j + 1 }
        e.chap e.sec e.subsec src) := by
  have hlt : st.expectedIndex < expected.length := by
    by_contra hcon
    rw [List.getElem?_eq_none (by omega)] at hget
    cases hget
  have hval : expected[st.expectedIndex] = eCur := by
    rw [List.getElem?_eq_getElem hlt] at hget
    exact Option.some.inj hget
  simp only [step, hp, ha]
  split
  · rw [hval, hnm]
    simp only [Bool.false_eq_true, if_false]
    rw [hscan]
  · exact absurd hlt (by assumption)

theorem step_orphan (expected : List ExpectedEntry) (exc : List (String × String))
    (st : ParseState) (src : Source) (c s : Nat) (ss : Option Nat) (t : String)
    (c' s' : Nat) (ss' : Option Nat) (eCur : ExpectedEntry)
    (hp : parseSource src = some (c, s, ss, t))
    (ha : applyExceptions exc c s ss = some (c', s', ss'))
    (hget : expected[st.expectedIndex]? = some eCur)
    (hnm : numberingMatches eCur c' s' ss' = false)
    (hscan : findTitleMatchFrom expected (candTitleOnly t) st.expectedIndex
        (min (st.expectedIndex + 5) expected.length) = none)
    (horph : foundInToc expected c' s' ss' (candTitleOnly t) = true) :
    step expected exc st src =
      some (acceptHeading { st with foundCount := st.foundCount + 1 } c' s' ss' src) := by
  have hlt : st.expectedIndex < expected.length := by
    by_contra hcon
    rw [List.getElem?_eq_none (by omega)] at hget
    cases hget
  have hval : expected[st.expectedIndex] = eCur := by
    rw [List.getElem?_eq_getElem hlt] at hget
    exact Option.some.inj hget
  simp only [step, hp, ha]
  split
  · rw [hval, hnm]
    simp only [Bool.false_eq_true, if_false]
    simp [hscan, horph]
  · exact absurd hlt (by assumption)

theorem step_reject (expected : List ExpectedEntry) (exc : List (String × String))
    (st : ParseState) (src : Source) (c s : Nat) (ss : Option Nat) (t : String)
    (c' s' : Nat) (ss' : Option Nat) (eCur : ExpectedEntry)
    (hp : parseSource src = some (c, s, ss, t))
    (ha : applyExceptions exc c s ss = some (c', s', ss'))
    (hget : expected[st.expectedIndex]? = some eCur)
    (hnm : numberingMatches eCur c' s' ss' = false)
    (hscan : findTitleMatchFrom expected (candTitleOnly t) st.expectedIndex
        (min (st.expectedIndex + 5) expected.length) = none)
    (horph : foundInToc expected c' s' ss' (candTitleOnly t) = false) :
    step expected exc st src = some st := by
  have hlt : st.expectedIndex < expected.length := by
    by_contra hcon
    rw [List.getElem?_eq_none (by omega)] at hget
    cases hget
  have hval : expected[st.expectedIndex] = eCur := by
    rw [List.getElem?_eq_getElem hlt] at hget
    exact Option.some.inj hget
  simp only [step, hp, ha]
  split
  · rw [hval, hnm]
    simp only [Bool.false_eq_true, if_false]
    simp [hscan, horph]
  · exact absurd hlt (by assumption)

/-! ## Properties of the fuzzy scan -/

theorem findTitleMatchAux_some (expected : List ExpectedEntry) (t : List Char) :
    ∀ (fuel i j : Nat) (e : ExpectedEntry),
      findTitleMatchAux expected t i fuel = some (j, e) →
      i ≤ j ∧ j < i + fuel ∧ expected[j]? = some e ∧ titleCondFuzzy t e = true ∧
        ∀ (k : Nat) (ek : ExpectedEntry), i ≤ k → k < j → expected[k]? = some ek →
          titleCondFuzzy t ek = false := by
  intro fuel
  induction fuel with
  | zero => intro i j e h; cases h
  | succ fuel ih =>
      intro i j e h
      unfold findTitleMatchAux at h
      cases hget : expected[i]? with
      | none => rw [hget] at h; cases h
      | some e0 =>
          simp only [hget] at h
          by_cases hcond : titleCondFuzzy t e0 = true
          · rw [if_pos hcond] at h
            obtain ⟨hj, he⟩ : j = i ∧ e0 = e := by
              cases h; exact ⟨rfl, rfl⟩
            subst hj; subst he
            refine ⟨le_refl _, by omega, hget, hcond, ?_⟩
            intro k ek hk1 hk2 _
            omega
          · rw [if_neg hcond] at h
            obtain ⟨h1, h2, h3, h4, h5⟩ := ih (i + 1) j e h
            refine ⟨by omega, by omega, h3, h4, ?_⟩
            intro k ek hk1 hk2 hkget
            by_cases hk : k = i
            · subst hk
              rw [hget] at hkget
              cases hkget
              simpa using hcond
            · exact h5 k ek (by omega) hk2 hkget

theorem findTitleMatchFrom_some (expected : List ExpectedEntry) (t : List Char)
    (i stop j : Nat) (e : ExpectedEntry)
    (h : findTitleMatchFrom expected t i stop = some (j, e)) :
    i ≤ j ∧ j < stop ∧ expected[j]? = some e ∧ titleCondFuzzy t e = true ∧
      ∀ (k : Nat) (ek : ExpectedEntry), i ≤ k → k < j → expected[k]? = some ek →
        titleCondFuzzy t ek = false := by
  obtain ⟨h1, h2, h3, h4, h5⟩ := findTitleMatchAux_some expected t (stop - i) i j e h
  have hstop : i < stop := by
    by_contra hc
    have hz : stop - i = 0 := by omega
    unfold findTitleMatchFrom at h
    rw [hz] at h
    simp [findTitleMatchAux] at h
  exact ⟨h1, by omega, h3, h4, h5⟩

/-! ## State-projection lemmas -/

theorem acceptHeading_expectedIndex (st : ParseState) (c s : Nat) (ss : Option Nat)
    (src : Source) : (acceptHeading st c s ss src).expectedIndex = st.expectedIndex := by
  unfold acceptHeading
  by_cases h : s = 0
  · simp [h]
  · cases ss <;> simp [h]

theorem appendContent_expectedIndex (st : ParseState) (src : Source) :
    (appendContent st src).expectedIndex = st.expectedIndex := by
  unfold appendContent
  cases st.currentChapter <;> cases st.currentSubsection <;> cases st.currentSection <;> simp

theorem nodeExists_acceptHeading_self (st : ParseState) (c s : Nat) (ss : Option Nat)
    (src : Source) : nodeExists (acceptHeading st c s ss src) c s ss = true := by
  have hx : ∀ {k : Type} [inst : DecidableEq k] (m : List (k × List Entry)) (key : k)
      (e : Entry), (lookupKey (appendKey (ensureKey m key) key e) key).isSome = true := by
    intro k inst m key e
    rw [lookupKey_isSome_appendKey, lookupKey_ensureKey_self]
    rfl
  unfold nodeExists acceptHeading
  by_cases h : s = 0
  · simp [h, hx]
  · cases ss <;> simp [h, hx]

theorem lookupKey_isSome_ensure_append {k : Type} [DecidableEq k]
    (m : List (k × List Entry)) (key key' : k) (e : Entry)
    (h : (lookupKey m key').isSome) :
    (lookupKey (appendKey (ensureKey m key) key e) key').isSome := by
  rw [lookupKey_isSome_appendKey]
  exact lookupKey_isSome_ensureKey _ _ _ h

theorem nodeExists_acceptHeading_mono (st : ParseState) (c s : Nat) (ss : Option Nat)
    (src : Source) (c0 s0 : Nat) (ss0 : Option Nat)
    (h : nodeExists st c0 s0 ss0 = true) :
    nodeExists (acceptHeading st c s ss src) c0 s0 ss0 = true := by
  unfold nodeExists at h ⊢
  unfold acceptHeading
  by_cases hs : s = 0
  · by_cases hs0 : s0 = 0
    · simp only [hs, hs0, if_pos rfl, if_true]
      simpa using lookupKey_isSome_ensure_append _ _ _ _ (by simpa [hs0] using h)
    · cases ss0 <;> simp [hs, hs0] at h ⊢ <;> exact h
  · cases ss with
    | none =>
        by_cases hs0 : s0 = 0
        · simp only [hs0, if_pos rfl] at h ⊢
          simp [hs]
          exact lookupKey_isSome_ensureKey _ _ _ (by simpa using h)
        · cases ss0 with
          | none =>
              simp [hs, hs0] at h ⊢
              simpa using lookupKey_isSome_ensure_append _ _ _ _ (by simpa using h)
          | some u0 => simp [hs, hs0] at h ⊢; exact h
    | some u =>
        by_cases hs0 : s0 = 0
        · simp only [hs0, if_pos rfl] at h ⊢
          simp [hs]
          exact lookupKey_isSome_ensureKey _ _ _ (by simpa using h)
        · cases ss0 with
          | none =>
              simp [hs, hs0] at h ⊢
              exact lookupKey_isSome_ensureKey _ _ _ (by simpa using h)
          | some u0 =>
              simp [hs, hs0] at h ⊢
              simpa using lookupKey_isSome_ensure_append _ _ _ _ (by simpa using h)

theorem nodeExists_appendContent_mono (st : ParseState) (src : Source)
    (c0 s0 : Nat) (ss0 : Option Nat) (h : nodeExists st c0 s0 ss0 = true) :
    nodeExists (appendContent st src) c0 s0 ss0 = true := by
  unfold nodeExists at h ⊢
  unfold appendContent
  cases st.currentChapter <;> cases st.currentSubsection <;> cases st.currentSection <;>
    by_cases hs0 : s0 = 0 <;> cases ss0 <;>
      simp [hs0, lookupKey_isSome_appendIfKey] at h ⊢ <;> exact h

/-- Every successful `step` produces one of three state shapes: plain
content appended, the candidate rejected (state unchanged), or a heading
accepted at some cursor position `ei` between the old cursor and the end
of the expected sequence. -/
theorem step_shape (expected : List ExpectedEntry) (exc : List (String × String))
    (st : ParseState) (src : Source) (st' : ParseState)
    (h : step expected exc st src = some st') :
    st' = appendContent st src ∨ st' = st ∨
      ∃ (c s : Nat) (ss : Option Nat) (ei : Nat),
        st.expectedIndex ≤ ei ∧ ei ≤ max st.expectedIndex expected.length ∧
        (∃ pr, parseSource src = some pr) ∧
        st' = acceptHeading
          { st with foundCount := st.foundCount + 1, expectedIndex := ei } c s ss src := by
  cases hp : parseSource src with
  | none =>
      rw [step_content expected exc st src hp] at h
      exact Or.inl (Option.some.inj h).symm
  | some q =>
      obtain ⟨c, s, ss, t⟩ := q
      cases ha : applyExceptions exc c s ss with
      | none => rw [step_crash expected exc st src c s ss t hp ha] at h; cases h
      | some r =>
          obtain ⟨c', s', ss'⟩ := r
          by_cases hei : st.expectedIndex < expected.length
          · have hget : expected[st.expectedIndex]? = some expected[st.expectedIndex] :=
              List.getElem?_eq_getElem hei
            by_cases hnm : numberingMatches expected[st.expectedIndex] c' s' ss' = true
            · rw [step_exact expected exc st src c s ss t c' s' ss' _ hp ha hget hnm] at h
              refine Or.inr (Or.inr ⟨c', s', ss', st.expectedIndex + 1, by omega, by omega,
                ⟨(c, s, ss, t), rfl⟩, (Option.some.inj h).symm⟩)
            · have hnm' : numberingMatches expected[st.expectedIndex] c' s' ss' = false := by
                simpa using hnm
              cases hscan : findTitleMatchFrom expected (candTitleOnly t) st.expectedIndex
                  (min (st.expectedIndex + 5) expected.length) with
              | some je =>
                  obtain ⟨j, e⟩ := je
                  rw [step_fuzzy expected exc st src c s ss t c' s' ss' _ j e
                    hp ha hget hnm' hscan] at h
                  obtain ⟨_, hj2, _, _, _⟩ :=
                    findTitleMatchFrom_some expected (candTitleOnly t) st.expectedIndex
                      (min (st.expectedIndex + 5) expected.length) j e hscan
                  refine Or.inr (Or.inr ⟨e.chap, e.sec, e.subsec, j + 1, by omega, ?_,
                    ⟨(c, s, ss, t), rfl⟩, (Option.some.inj h).symm⟩)
                  have : j < expected.length := lt_of_lt_of_le hj2 (min_le_right _ _)
                  omega
              | none =>
                  by_cases horph : foundInToc expected c' s' ss' (candTitleOnly t) = true
                  · rw [step_orphan expected exc st src c s ss t c' s' ss' _
                      hp ha hget hnm' hscan horph] at h
                    refine Or.inr (Or.inr ⟨c', s', ss', st.expectedIndex, le_refl _,
                      le_max_left _ _, ⟨(c, s, ss, t), rfl⟩, ?_⟩)
                    exact (Option.some.inj h).symm
                  · have horph' : foundInToc expected c' s' ss' (candTitleOnly t) = false := by
                      simpa using horph
                    rw [step_reject expected exc st src c s ss t c' s' ss' _
                      hp ha hget hnm' hscan horph'] at h
                    exact Or.inr (Or.inl (Option.some.inj h).symm)
          · rw [step_bypass expected exc st src c s ss t c' s' ss' hp ha hei] at h
            refine Or.inr (Or.inr ⟨c', s', ss', st.expectedIndex, le_refl _,
              le_max_left _ _, ⟨(c, s, ss, t), rfl⟩, (Option.some.inj h).symm⟩)

theorem nodeExists_step_mono (expected : List ExpectedEntry)
    (exc : List (String × String)) (st : ParseState) (src : Source) (st' : ParseState)
    (c0 s0 : Nat) (ss0 : Option Nat)
    (h : step expected exc st src = some st') (hn : nodeExists st c0 s0 ss0 = true) :
    nodeExists st' c0 s0 ss0 = true := by
  rcases step_shape expected exc st src st' h with h1 | h1 | ⟨c, s, ss, ei, _, _, _, h1⟩
  · subst h1; exact nodeExists_appendContent_mono st src c0 s0 ss0 hn
  · subst h1; exact hn
  · subst h1; exact nodeExists_acceptHeading_mono _ c s ss src c0 s0 ss0 hn

theorem step_empty_some (st : ParseState) (src : Source) :
    ∃ st', step [] [] st src = some st' := by
  cases hp : parseSource src with
  | none => exact ⟨_, step_content [] [] st src hp⟩
  | some q =>
      obtain ⟨c, s, ss, t⟩ := q
      exact ⟨_, step_bypass [] [] st src c s ss t c s ss hp rfl (by simp)⟩

theorem parse_total_empty (stream : List Source) :
    ∃ st, parse_document_structure [] [] stream = some st := by
  suffices h : ∀ (st0 : ParseState), ∃ st, List.foldlM (step [] []) st0 stream = some st
    from h initState
  induction stream with
  | nil => intro st0; exact ⟨st0, rfl⟩
  | cons a rest ih =>
      intro st0
      obtain ⟨st1, h1⟩ := step_empty_some st0 a
      obtain ⟨st2, h2⟩ := ih st1
      refine ⟨st2, ?_⟩
      rw [List.foldlM_cons, h1]
      simpa using h2

/-! ## The claims -/

/-- C1, counterexample: the claim says an empty expected sequence makes the
aligner reject every candidate, leaving the chapters/sections/subsections
maps empty.  In fact with `expected_sequence = []` the guard
`expected_index < len(expected_sequence)` is false, the whole validation
block is skipped, and the candidate "1.0 Introduction" is confirmed,
creating a chapter StructureNode. -/
theorem claim_C1_counterexample :
    (parse_document_structure [] [] [Source.para "1.0 Introduction" []]).map
        (fun st => st.chapterElems) =
      some [(1, [("paragraph", Source.para "1.0 Introduction" [])])] := rfl

/-- C1, amended: with an empty expected sequence (and the empty exception
table) the run indeed never crashes, but instead of rejecting candidates it
confirms every one of them unconditionally under its own parsed numbering:
the parse succeeds and every parsed candidate's key has a StructureNode in
the final state. -/
theorem claim_C1 (stream : List Source) :
    ∃ st, parse_document_structure [] [] stream = some st ∧
      ∀ src ∈ stream, ∀ (c sv : Nat) (ss : Option Nat) (t : String),
        parseSource src = some (c, sv, ss, t) → nodeExists st c sv ss = true := by
  obtain ⟨st, hst⟩ := parse_total_empty stream
  refine ⟨st, hst, ?_⟩
  have hstep : ∀ (s1 : ParseState) (a : Source) (s2 : ParseState) (pre : List Source),
      step [] [] s1 a = some s2 →
      (∀ src ∈ pre, ∀ (c sv : Nat) (ss : Option Nat) (t : String),
          parseSource src = some (c, sv, ss, t) → nodeExists s1 c sv ss = true) →
      ∀ src ∈ pre ++ [a], ∀ (c sv : Nat) (ss : Option Nat) (t : String),
          parseSource src = some (c, sv, ss, t) → nodeExists s2 c sv ss = true := by
    intro s1 a s2 pre hs hP src hmem c sv ss t hp
    rcases List.mem_append.mp hmem with hm | hm
    · exact nodeExists_step_mono [] [] s1 a s2 c sv ss hs (hP src hm c sv ss t hp)
    · have ha : src = a := by simpa using hm
      subst ha
      rw [step_bypass [] [] s1 src c sv ss t c sv ss hp rfl (by simp)] at hs
      rw [← Option.some.inj hs]
      exact nodeExists_acceptHeading_self _ c sv ss src
  have hP0 : ∀ src ∈ ([] : List Source), ∀ (c sv : Nat) (ss : Option Nat) (t : String),
      parseSource src = some (c, sv, ss, t) → nodeExists initState c sv ss = true := by
    intro src hmem
    cases hmem
  have hall := foldlM_option_inv_pre (step [] [])
    (fun s pre => ∀ src ∈ pre, ∀ (c sv : Nat) (ss : Option Nat) (t : String),
        parseSource src = some (c, sv, ss, t) → nodeExists s c sv ss = true)
    hstep stream [] initState st hst hP0
  simpa using hall

/-- Witness for C1 at a concrete one-candidate stream. -/
theorem claim_C1_witness :
    ∃ st, parse_document_structure [] [] [Source.para "1.0 Introduction" []] = some st ∧
      ∀ src ∈ [Source.para "1.0 Introduction" []], ∀ (c sv : Nat) (ss : Option Nat)
          (t : String),
        parseSource src = some (c, sv, ss, t) → nodeExists st c sv ss = true :=
  claim_C1 [Source.para "1.0 Introduction" []]

/-- C8: the spec says a malformed exception replacement (not 2 or 3
dot-separated integers, e.g. `"3."`) is ignored and the original parse
kept.  The code only checks the *count* of dot-separated parts:
`"3."` splits into 2 parts `["3", ""]` and `int("")` raises an uncaught
`ValueError`, aborting the whole parse (modelled as `none`) instead of
ignoring the rule. -/
theorem claim_C8_bug :
    load_exceptions ["3.2 = 3."] = [("3.2", "3.")] ∧
    applyExceptions (load_exceptions ["3.2 = 3."]) 3 2 none = none ∧
    parse_document_structure [] (load_exceptions ["3.2 = 3."])
      [Source.para "3.2 Important Notes" []] = none := by
  refine ⟨rfl, rfl, rfl⟩

/-- C10: when the cursor equals the expected-sequence length, a parsed
candidate bypasses all three validation cases and is accepted
unconditionally under its (possibly exception-corrected) numbering; its
key gets a StructureNode and the cursor does not move. -/
theorem claim_C10 (expected : List ExpectedEntry) (exc : List (String × String))
    (st : ParseState) (src : Source) (c s : Nat) (ss : Option Nat) (t : String)
    (c' s' : Nat) (ss' : Option Nat)
    (hei : st.expectedIndex = expected.length)
    (hp : parseSource src = some (c, s, ss, t))
    (ha : applyExceptions exc c s ss = some (c', s', ss')) :
    step expected exc st src =
      some (acceptHeading { st with foundCount := st.foundCount + 1 } c' s' ss' src) ∧
    nodeExists (acceptHeading { st with foundCount := st.foundCount + 1 } c' s' ss' src)
        c' s' ss' = true ∧
    (acceptHeading { st with foundCount := st.foundCount + 1 } c' s' ss' src).expectedIndex
        = st.expectedIndex :=
  ⟨step_bypass expected exc st src c s ss t c' s' ss' hp ha (by omega),
   nodeExists_acceptHeading_self _ c' s' ss' src,
   acceptHeading_expectedIndex _ c' s' ss' src⟩

/-- Witness for C10: empty expected sequence (cursor 0 = length 0), a
paragraph candidate, empty exception table. -/
theorem claim_C10_witness :
    step [] [] initState (Source.para "1.0 Introduction" []) =
      some (acceptHeading { initState with foundCount := initState.foundCount + 1 }
        1 0 none (Source.para "1.0 Introduction" [])) ∧
    nodeExists (acceptHeading { initState with foundCount := initState.foundCount + 1 }
        1 0 none (Source.para "1.0 Introduction" [])) 1 0 none = true ∧
    (acceptHeading { initState with foundCount := initState.foundCount + 1 }
        1 0 none (Source.para "1.0 Introduction" [])).expectedIndex
      = initState.expectedIndex :=
  claim_C10 [] [] initState (Source.para "1.0 Introduction" []) 1 0 none
    "1.0 Introduction" 1 0 none rfl rfl rfl

/-- C4: a candidate whose (possibly exception-corrected) numbering equals
the expected entry at the cursor is accepted with that numbering and the
cursor advances by exactly 1; and on the concrete expected sequence
`[(1,0),(1,1),(1,2)]` with perfectly matching candidates in order the
final cursor equals 3. -/
theorem claim_C4 :
    (∀ (expected : List ExpectedEntry) (exc : List (String × String)) (st : ParseState)
        (src : Source) (c s : Nat) (ss : Option Nat) (t : String) (c' s' : Nat)
        (ss' : Option Nat) (e : ExpectedEntry),
        parseSource src = some (c, s, ss, t) →
        applyExceptions exc c s ss = some (c', s', ss') →
        expected[st.expectedIndex]? = some e →
        numberingMatches e c' s' ss' = true →
        step expected exc st src =
          some (acceptHeading
            { st with foundCount := st.foundCount + 1,
                      expectedIndex := st.expectedIndex + 1 } c' s' ss' src) ∧
        nodeExists (acceptHeading
            { st with foundCount := st.foundCount + 1,
                      expectedIndex := st.expectedIndex + 1 } c' s' ss' src) c' s' ss'
          = true) ∧
    (parse_document_structure expC4 [] streamC4).map (fun st => st.expectedIndex) =
      some 3 := by
  refine ⟨?_, rfl⟩
  intro expected exc st src c s ss t c' s' ss' e hp ha hget hm
  exact ⟨step_exact expected exc st src c s ss t c' s' ss' e hp ha hget hm,
    nodeExists_acceptHeading_self _ c' s' ss' src⟩

/-- Witness for C4 at the first element of the concrete stream. -/
theorem claim_C4_witness :
    step expC4 [] initState (Source.para "1.0 Alpha Intro" []) =
      some (acceptHeading
        { initState with foundCount := initState.foundCount + 1,
                         expectedIndex := initState.expectedIndex + 1 }
        1 0 none (Source.para "1.0 Alpha Intro" [])) ∧
    nodeExists (acceptHeading
        { initState with foundCount := initState.foundCount + 1,
                         expectedIndex := initState.expectedIndex + 1 }
        1 0 none (Source.para "1.0 Alpha Intro" [])) 1 0 none = true :=
  claim_C4.1 expC4 [] initState (Source.para "1.0 Alpha Intro" []) 1 0 none
    "1.0 Alpha Intro" 1 0 none
    { etype := "chapter", chap := 1, sec := 0, subsec := none,
      title := "1.0 Alpha Intro", title_normalized := "1.0 alpha intro" }
    rfl rfl rfl rfl

/-- C5: fuzzy relocation.  The scan really returns the first entry of the
window `[cursor, min(cursor+5, len))` passing the containment test (with
candidate stripped title longer than 3); on a hit the candidate is
accepted under the matched entry's numbering and the cursor moves to one
past the matched index.  Concretely, a candidate parsed `(2,7)` titled
"Vaccination Protocols" against expected `(2,1,"Vaccination Protocols")`
is accepted and reassigned to `(2,1)` with cursor 1. -/
theorem claim_C5 :
    (∀ (expected : List ExpectedEntry) (t : List Char) (i stop j : Nat)
        (e : ExpectedEntry),
        findTitleMatchFrom expected t i stop = some (j, e) →
        i ≤ j ∧ j < stop ∧ expected[j]? = some e ∧ titleCondFuzzy t e = true ∧
          ∀ (k : Nat) (ek : ExpectedEntry), i ≤ k → k < j → expected[k]? = some ek →
            titleCondFuzzy t ek = false) ∧
    (∀ (expected : List ExpectedEntry) (exc : List (String × String)) (st : ParseState)
        (src : Source) (c s : Nat) (ss : Option Nat) (t : String) (c' s' : Nat)
        (ss' : Option Nat) (eCur : ExpectedEntry) (j : Nat) (e : ExpectedEntry),
        parseSource src = some (c, s, ss, t) →
        applyExceptions exc c s ss = some (c', s', ss') →
        expected[st.expectedIndex]? = some eCur →
        numberingMatches eCur c' s' ss' = false →
        findTitleMatchFrom expected (candTitleOnly t) st.expectedIndex
            (min (st.expectedIndex + 5) expected.length) = some (j, e) →
        step expected exc st src =
          some (acceptHeading
            { st with foundCount := st.foundCount + 1, expectedIndex := j + 1 }
            e.chap e.sec e.subsec src)) ∧
    (parse_document_structure expC5 [] [Source.para "2.7 Vaccination Protocols" []]).map
        (fun st => (st.expectedIndex, st.sectionElems)) =
      some (1, [((2, 1),
        [("paragraph", Source.para "2.7 Vaccination Protocols" [])])]) := by
  refine ⟨?_, ?_, rfl⟩
  · intro expected t i stop j e h
    exact findTitleMatchFrom_some expected t i stop j e h
  · intro expected exc st src c s ss t c' s' ss' eCur j e hp ha hget hnm hscan
    exact step_fuzzy expected exc st src c s ss t c' s' ss' eCur j e hp ha hget hnm hscan

/-- Witness for C5 on the Vaccination Protocols example. -/
theorem claim_C5_witness :
    step expC5 [] initState (Source.para "2.7 Vaccination Protocols" []) =
      some (acceptHeading
        { initState with foundCount := initState.foundCount + 1, expectedIndex := 0 + 1 }
        2 1 none (Source.para "2.7 Vaccination Protocols" [])) :=
  claim_C5.2.1 expC5 [] initState (Source.para "2.7 Vaccination Protocols" [])
    2 7 none "2.7 Vaccination Protocols" 2 7 none
    { etype := "section", chap := 2, sec := 1, subsec := none,
      title := "2.1 Vaccination Protocols",
      title_normalized := "2.1 vaccination protocols" }
    0
    { etype := "section", chap := 2, sec := 1, subsec := none,
      title := "2.1 Vaccination Protocols",
      title_normalized := "2.1 vaccination protocols" }
    rfl rfl rfl rfl rfl

/-- C2, counterexample: the claim says orphan validation accepts whenever
*any* entry anywhere in the expected sequence has the candidate's numbering
and a passing title, even with duplicate numbering.  In `expC2` the entry
at index 6 has numbering (1,1) and a passing title for the candidate
"1.1 Good Title Here", yet the parse rejects the candidate (final state =
initial state): the scan `break`s at the first (1,1) entry (index 1),
whose title fails, and never reaches index 6. -/
theorem claim_C2_counterexample :
    parseSource (Source.para "1.1 Good Title Here" []) =
      some (1, 1, none, "1.1 Good Title Here") ∧
    (expC2[6]?).map (fun e => numberingMatches e 1 1 none &&
        titleCondOrphan (candTitleOnly "1.1 Good Title Here") e) = some true ∧
    parse_document_structure expC2 [] [Source.para "1.1 Good Title Here" []] =
      some initState := by
  refine ⟨rfl, by decide, by decide⟩

/-- C2, amended: the orphan scan consults only the *first* expected entry
whose numbering equals the candidate's; the candidate is accepted (own
numbering, cursor unmoved) exactly when that first entry's title passes
the containment test, and rejected otherwise — later duplicates are never
examined. -/
theorem claim_C2 (expected : List ExpectedEntry) (exc : List (String × String))
    (st : ParseState) (src : Source) (c s : Nat) (ss : Option Nat) (t : String)
    (c' s' : Nat) (ss' : Option Nat) (eCur eFirst : ExpectedEntry)
    (hp : parseSource src = some (c, s, ss, t))
    (ha : applyExceptions exc c s ss = some (c', s', ss'))
    (hget : expected[st.expectedIndex]? = some eCur)
    (hnm : numberingMatches eCur c' s' ss' = false)
    (hscan : findTitleMatchFrom expected (candTitleOnly t) st.expectedIndex
        (min (st.expectedIndex + 5) expected.length) = none)
    (hfind : expected.find? (fun e => numberingMatches e c' s' ss') = some eFirst) :
    step expected exc st src =
      some (if titleCondOrphan (candTitleOnly t) eFirst = true then
        acceptHeading { st with foundCount := st.foundCount + 1 } c' s' ss' src
      else st) := by
  by_cases hto : titleCondOrphan (candTitleOnly t) eFirst = true
  · rw [if_pos hto]
    refine step_orphan expected exc st src c s ss t c' s' ss' eCur hp ha hget hnm hscan ?_
    unfold foundInToc
    rw [hfind]
    exact hto
  · rw [if_neg hto]
    refine step_reject expected exc st src c s ss t c' s' ss' eCur hp ha hget hnm hscan ?_
    unfold foundInToc
    rw [hfind]
    simpa using hto

/-- Witness for C2 on the duplicate-numbering sequence: the first (1,1)
entry's title fails, so the candidate is rejected. -/
theorem claim_C2_witness :
    step expC2 [] initState (Source.para "1.1 Good Title Here" []) =
      some (if titleCondOrphan (candTitleOnly "1.1 Good Title Here")
          { etype := "section", chap := 1, sec := 1, subsec := none,
            title := "1.1 Zz", title_normalized := "1.1 zz" } = true then
        acceptHeading { initState with foundCount := initState.foundCount + 1 }
          1 1 none (Source.para "1.1 Good Title Here" [])
      else initState) :=
  claim_C2 expC2 [] initState (Source.para "1.1 Good Title Here" []) 1 1 none
    "1.1 Good Title Here" 1 1 none
    { etype := "chapter", chap := 9, sec := 0, subsec := none,
      title := "9.0 Misc Stuff", title_normalized := "9.0 misc stuff" }
    { etype := "section", chap := 1, sec := 1, subsec := none,
      title := "1.1 Zz", title_normalized := "1.1 zz" }
    rfl rfl (by decide) (by decide) (by decide) (by decide)

/-- C3, counterexample: the claim says a candidate failing all three
acceptance paths has its source element appended as ordinary content to
the currently open node.  In fact the code hits `continue` and drops it:
after "1.0 Alpha Intro" opens chapter 1, the rejected candidate
"7.7 Qqqq qqq" appears in no node — chapter 1's content holds only the
heading and the later plain paragraph. -/
theorem claim_C3_counterexample :
    parseSource (Source.para "7.7 Qqqq qqq" []) = some (7, 7, none, "7.7 Qqqq qqq") ∧
    (parse_document_structure expC3 [] streamC3).map (fun st => st.chapterElems) =
      some [(1, [("paragraph", Source.para "1.0 Alpha Intro" []),
                 ("paragraph", Source.para "hello there" [])])] := by
  refine ⟨rfl, by decide⟩

/-- C3, amended: a candidate failing all three acceptance paths against a
non-empty expected sequence is dropped entirely — the step returns the
state unchanged (no element appended to any node, cursor unmoved,
found-count net unchanged). -/
theorem claim_C3 (expected : List ExpectedEntry) (exc : List (String × String))
    (st : ParseState) (src : Source) (c s : Nat) (ss : Option Nat) (t : String)
    (c' s' : Nat) (ss' : Option Nat) (eCur : ExpectedEntry)
    (hp : parseSource src = some (c, s, ss, t))
    (ha : applyExceptions exc c s ss = some (c', s', ss'))
    (hget : expected[st.expectedIndex]? = some eCur)
    (hnm : numberingMatches eCur c' s' ss' = false)
    (hscan : findTitleMatchFrom expected (candTitleOnly t) st.expectedIndex
        (min (st.expectedIndex + 5) expected.length) = none)
    (horph : foundInToc expected c' s' ss' (candTitleOnly t) = false) :
    step expected exc st src = some st :=
  step_reject expected exc st src c s ss t c' s' ss' eCur hp ha hget hnm hscan horph

/-- Witness for C3: the rejected candidate of the concrete stream leaves
the state after the first heading unchanged. -/
theorem claim_C3_witness :
    step expC3 [] stC3mid (Source.para "7.7 Qqqq qqq" []) = some stC3mid :=
  claim_C3 expC3 [] stC3mid
    (Source.para "7.7 Qqqq qqq" []) 7 7 none "7.7 Qqqq qqq" 7 7 none
    { etype := "chapter", chap := 2, sec := 0, subsec := none,
      title := "2.0 Beta Stuff", title_normalized := "2.0 beta stuff" }
    rfl rfl (by decide) (by decide) (by decide) (by decide)

/-- C6, counterexample: the claim says the false-positive filter applies
to body candidates too, so "0.2 mg/kg twice daily" never becomes a
heading.  The filter does flag this text, but `parse_document_structure`
never calls it on body candidates: with the empty expected sequence the
text is confirmed as heading (0,2). -/
theorem claim_C6_counterexample :
    is_toc_false_positive "0.2 mg/kg twice daily" "section" 0 none none = true ∧
    parseSource (Source.para "0.2 mg/kg twice daily" []) =
      some (0, 2, none, "0.2 mg/kg twice daily") ∧
    (parse_document_structure [] [] [Source.para "0.2 mg/kg twice daily" []]).map
        (fun st => (lookupKey st.sectionElems (0, 2)).isSome) = some true := by
  refine ⟨rfl, rfl, rfl⟩

/-- C6, amended: the aligner (not the filter) is what rejects the dosage
text when the expected sequence is non-empty: if no expected entry is
numbered (0,2) and no title-containment hit exists in the fuzzy window,
the candidate "0.2 mg/kg twice daily" is rejected and the state is
unchanged.  (With an empty expected sequence it is confirmed, per the
counterexample.) -/
theorem claim_C6 (expected : List ExpectedEntry) (exc : List (String × String))
    (st : ParseState) (eCur : ExpectedEntry)
    (hget : expected[st.expectedIndex]? = some eCur)
    (hexc : lookupStr exc "0.2" = none)
    (hfind : expected.find? (fun e => numberingMatches e 0 2 none) = none)
    (hscan : findTitleMatchFrom expected (candTitleOnly "0.2 mg/kg twice daily")
        st.expectedIndex (min (st.expectedIndex + 5) expected.length) = none) :
    step expected exc st (Source.para "0.2 mg/kg twice daily" []) = some st := by
  have hp : parseSource (Source.para "0.2 mg/kg twice daily" []) =
      some (0, 2, none, "0.2 mg/kg twice daily") := rfl
  have ha : applyExceptions exc 0 2 none = some (0, 2, none) := by
    unfold applyExceptions
    have hns : numString 0 2 none = "0.2" := rfl
    rw [hns, hexc]
  have hmem : eCur ∈ expected := by
    obtain ⟨hlt, hval⟩ := List.getElem?_eq_some.mp hget
    exact hval ▸ List.getElem_mem hlt
  have hnm : numberingMatches eCur 0 2 none = false := by
    have hne := List.find?_eq_none.mp hfind eCur hmem
    simpa using hne
  have horph : foundInToc expected 0 2 none
      (candTitleOnly "0.2 mg/kg twice daily") = false := by
    unfold foundInToc
    rw [hfind]
  exact step_reject expected exc st (Source.para "0.2 mg/kg twice daily" [])
    0 2 none "0.2 mg/kg twice daily" 0 2 none eCur hp ha hget hnm hscan horph

/-- Witness for C6 against the non-empty expected sequence `expC4`. -/
theorem claim_C6_witness :
    step expC4 [] initState (Source.para "0.2 mg/kg twice daily" []) =
      some initState :=
  claim_C6 expC4 [] initState
    { etype := "chapter", chap := 1, sec := 0, subsec := none,
      title := "1.0 Alpha Intro", title_normalized := "1.0 alpha intro" }
    (by decide) rfl (by decide) (by decide)

/-- C7: the alignment cursor never rewinds — across every successful step
its value is non-decreasing — and, over a whole run from the initial
state, it never exceeds the length of the expected sequence. -/
theorem claim_C7 :
    (∀ (expected : List ExpectedEntry) (exc : List (String × String)) (st : ParseState)
        (src : Source) (st' : ParseState),
        st.expectedIndex ≤ expected.length →
        step expected exc st src = some st' →
        st.expectedIndex ≤ st'.expectedIndex ∧ st'.expectedIndex ≤ expected.length) ∧
    (∀ (expected : List ExpectedEntry) (exc : List (String × String))
        (stream : List Source) (st : ParseState),
        parse_document_structure expected exc stream = some st →
        st.expectedIndex ≤ expected.length) := by
  have hstep : ∀ (expected : List ExpectedEntry) (exc : List (String × String))
      (st : ParseState) (src : Source) (st' : ParseState),
      st.expectedIndex ≤ expected.length →
      step expected exc st src = some st' →
      st.expectedIndex ≤ st'.expectedIndex ∧ st'.expectedIndex ≤ expected.length := by
    intro expected exc st src st' hb h
    rcases step_shape expected exc st src st' h with h1 | h1 | ⟨c, s, ss, ei, h1, h2, _, h3⟩
    · subst h1
      rw [appendContent_expectedIndex]
      exact ⟨le_refl _, hb⟩
    · subst h1
      exact ⟨le_refl _, hb⟩
    · subst h3
      rw [acceptHeading_expectedIndex]
      rw [max_eq_right hb] at h2
      exact ⟨h1, h2⟩
  refine ⟨hstep, ?_⟩
  intro expected exc stream st h
  exact foldlM_option_inv (step expected exc)
    (fun s => s.expectedIndex ≤ expected.length)
    (fun s a s' hsa hs => (hstep expected exc s a s' hs hsa).2)
    stream initState st h (Nat.zero_le _)

/-- Witness for C7 at the first step of the C3 run. -/
theorem claim_C7_witness :
    initState.expectedIndex ≤ expC3.length ∧
    (initState.expectedIndex ≤ stC3mid.expectedIndex ∧
      stC3mid.expectedIndex ≤ expC3.length) :=
  ⟨by decide,
   claim_C7.1 expC3 [] initState (Source.para "1.0 Alpha Intro" []) stC3mid
     (by decide) (by decide)⟩

/-! ## Sublist and key-uniqueness preservation (C9) -/

theorem headingEntry_eq_entryOf (src : Source)
    (pr : Nat × Nat × Option Nat × String) (hp : parseSource src = some pr) :
    headingEntry src = entryOf src := by
  cases src with
  | para t l => rfl
  | cell t => rfl
  | table i => exact absurd hp (by simp [parseSource])
  | image i => exact absurd hp (by simp [parseSource])

theorem sublist_lookup_appendKey {k : Type} [DecidableEq k]
    (m : List (k × List Entry)) (key : k) (e : Entry) (P : List Entry)
    (hm : ∀ (key0 : k) (l0 : List Entry), lookupKey m key0 = some l0 → l0.Sublist P) :
    ∀ (key' : k) (l' : List Entry), lookupKey (appendKey m key e) key' = some l' →
      l'.Sublist (P ++ [e]) := by
  intro key' l' h
  rw [lookupKey_appendKey] at h
  by_cases hk : key' = key
  · rw [if_pos hk] at h
    cases hll : lookupKey m key' with
    | none => rw [hll] at h; cases h
    | some l0 =>
        rw [hll] at h
        have he : l0 ++ [e] = l' := Option.some.inj h
        rw [← he]
        exact List.Sublist.append (hm key' l0 hll) (List.Sublist.refl [e])
  · rw [if_neg hk] at h
    exact (hm key' l' h).trans (List.sublist_append_left P [e])

theorem sublist_lookup_ensureKey {k : Type} [DecidableEq k]
    (m : List (k × List Entry)) (key : k) (P : List Entry)
    (hm : ∀ (key0 : k) (l0 : List Entry), lookupKey m key0 = some l0 → l0.Sublist P) :
    ∀ (key' : k) (l' : List Entry), lookupKey (ensureKey m key) key' = some l' →
      l'.Sublist P := by
  intro key' l' h
  by_cases hk : key' = key
  · subst hk
    rw [lookupKey_ensureKey_self] at h
    cases hll : lookupKey m key' with
    | none =>
        rw [hll] at h
        have he : l' = [] := by simpa using (Option.some.inj h).symm
        rw [he]
        exact List.nil_sublist P
    | some l0 =>
        rw [hll] at h
        have he : l0 = l' := by simpa using Option.some.inj h
        rw [← he]
        exact hm key' l0 hll
  · rw [lookupKey_ensureKey_other m key key' hk] at h
    exact hm key' l' h

theorem sublist_lookup_appendIfKey {k : Type} [DecidableEq k]
    (m : List (k × List Entry)) (key : k) (e : Entry) (P : List Entry)
    (hm : ∀ (key0 : k) (l0 : List Entry), lookupKey m key0 = some l0 → l0.Sublist P) :
    ∀ (key' : k) (l' : List Entry), lookupKey (appendIfKey m key e) key' = some l' →
      l'.Sublist (P ++ [e]) := by
  intro key' l' h
  unfold appendIfKey at h
  by_cases hs : (lookupKey m key).isSome
  · rw [if_pos hs] at h
    exact sublist_lookup_appendKey m key e P hm key' l' h
  · rw [if_neg hs] at h
    exact (hm key' l' h).trans (List.sublist_append_left P [e])

theorem sublist_lookup_ensure_append {k : Type} [DecidableEq k]
    (m : List (k × List Entry)) (key : k) (e : Entry) (P : List Entry)
    (hm : ∀ (key0 : k) (l0 : List Entry), lookupKey m key0 = some l0 → l0.Sublist P) :
    ∀ (key' : k) (l' : List Entry),
      lookupKey (appendKey (ensureKey m key) key e) key' = some l' →
      l'.Sublist (P ++ [e]) :=
  sublist_lookup_appendKey (ensureKey m key) key e P
    (sublist_lookup_ensureKey m key P hm)

theorem sublist_lookup_weaken {k : Type} [DecidableEq k]
    (m : List (k × List Entry)) (e : Entry) (P : List Entry)
    (hm : ∀ (key0 : k) (l0 : List Entry), lookupKey m key0 = some l0 → l0.Sublist P) :
    ∀ (key' : k) (l' : List Entry), lookupKey m key' = some l' →
      l'.Sublist (P ++ [e]) :=
  fun key' l' h => (hm key' l' h).trans (List.sublist_append_left P [e])

theorem acceptHeading_inv (st : ParseState) (c s : Nat) (ss : Option Nat)
    (src : Source) (P : List Entry)
    (hent : headingEntry src = entryOf src)
    (hch : ∀ (key : Nat) (l : List Entry), lookupKey st.chapterElems key = some l →
      l.Sublist P)
    (hse : ∀ (key : Nat × Nat) (l : List Entry), lookupKey st.sectionElems key = some l →
      l.Sublist P)
    (hsu : ∀ (key : Nat × Nat × Nat) (l : List Entry),
      lookupKey st.subsectionElems key = some l → l.Sublist P) :
    (∀ (key : Nat) (l : List Entry),
        lookupKey (acceptHeading st c s ss src).chapterElems key = some l →
        l.Sublist (P ++ [entryOf src])) ∧
    (∀ (key : Nat × Nat) (l : List Entry),
        lookupKey (acceptHeading st c s ss src).sectionElems key = some l →
        l.Sublist (P ++ [entryOf src])) ∧
    (∀ (key : Nat × Nat × Nat) (l : List Entry),
        lookupKey (acceptHeading st c s ss src).subsectionElems key = some l →
        l.Sublist (P ++ [entryOf src])) := by
  unfold acceptHeading
  rw [hent]
  by_cases hs0 : s = 0
  · simp only [hs0, if_pos rfl]
    exact ⟨sublist_lookup_ensure_append _ _ _ _ hch,
      sublist_lookup_weaken _ _ _ hse,
      sublist_lookup_weaken _ _ _ hsu⟩
  · cases ss with
    | none =>
        simp only [hs0, if_neg]
        exact ⟨fun key l h => (sublist_lookup_ensureKey _ _ _ hch key l h).trans
            (List.sublist_append_left P [entryOf src]),
          sublist_lookup_ensure_append _ _ _ _ hse,
          sublist_lookup_weaken _ _ _ hsu⟩
    | some u =>
        simp only [hs0, if_neg]
        exact ⟨fun key l h => (sublist_lookup_ensureKey _ _ _ hch key l h).trans
            (List.sublist_append_left P [entryOf src]),
          fun key l h => (sublist_lookup_ensureKey _ _ _ hse key l h).trans
            (List.sublist_append_left P [entryOf src]),
          sublist_lookup_ensure_append _ _ _ _ hsu⟩

theorem appendContent_inv (st : ParseState) (src : Source) (P : List Entry)
    (hch : ∀ (key : Nat) (l : List Entry), lookupKey st.chapterElems key = some l →
      l.Sublist P)
    (hse : ∀ (key : Nat × Nat) (l : List Entry), lookupKey st.sectionElems key = some l →
      l.Sublist P)
    (hsu : ∀ (key : Nat × Nat × Nat) (l : List Entry),
      lookupKey st.subsectionElems key = some l → l.Sublist P) :
    (∀ (key : Nat) (l : List Entry),
        lookupKey (appendContent st src).chapterElems key = some l →
        l.Sublist (P ++ [entryOf src])) ∧
    (∀ (key : Nat × Nat) (l : List Entry),
        lookupKey (appendContent st src).sectionElems key = some l →
        l.Sublist (P ++ [entryOf src])) ∧
    (∀ (key : Nat × Nat × Nat) (l : List Entry),
        lookupKey (appendContent st src).subsectionElems key = some l →
        l.Sublist (P ++ [entryOf src])) := by
  unfold appendContent
  cases st.currentChapter with
  | none =>
      exact ⟨sublist_lookup_weaken _ _ _ hch, sublist_lookup_weaken _ _ _ hse,
        sublist_lookup_weaken _ _ _ hsu⟩
  | some cc =>
      cases st.currentSubsection with
      | some cu =>
          cases st.currentSection with
          | some cs =>
              exact ⟨sublist_lookup_weaken _ _ _ hch, sublist_lookup_weaken _ _ _ hse,
                sublist_lookup_appendIfKey _ _ _ _ hsu⟩
          | none =>
              exact ⟨sublist_lookup_weaken _ _ _ hch, sublist_lookup_weaken _ _ _ hse,
                sublist_lookup_weaken _ _ _ hsu⟩
      | none =>
          cases st.currentSection with
          | some cs =>
              exact ⟨sublist_lookup_weaken _ _ _ hch,
                sublist_lookup_appendIfKey _ _ _ _ hse,
                sublist_lookup_weaken _ _ _ hsu⟩
          | none =>
              exact ⟨sublist_lookup_appendIfKey _ _ _ _ hch,
                sublist_lookup_weaken _ _ _ hse, sublist_lookup_weaken _ _ _ hsu⟩

theorem acceptHeading_keys_nodup (st : ParseState) (c s : Nat) (ss : Option Nat)
    (src : Source)
    (h1 : (st.chapterElems.map Prod.fst).Nodup)
    (h2 : (st.sectionElems.map Prod.fst).Nodup)
    (h3 : (st.subsectionElems.map Prod.fst).Nodup) :
    ((acceptHeading st c s ss src).chapterElems.map Prod.fst).Nodup ∧
    ((acceptHeading st c s ss src).sectionElems.map Prod.fst).Nodup ∧
    ((acceptHeading st c s ss src).subsectionElems.map Prod.fst).Nodup := by
  unfold acceptHeading
  by_cases hs0 : s = 0
  · simp only [hs0, eq_self_iff_true, if_true]
    exact ⟨by rw [keys_appendKey]; exact keys_ensureKey_nodup _ _ h1, h2, h3⟩
  · cases ss with
    | none =>
        simp only [hs0, if_false]
        exact ⟨keys_ensureKey_nodup _ _ h1,
          by rw [keys_appendKey]; exact keys_ensureKey_nodup _ _ h2, h3⟩
    | some u =>
        simp only [hs0, if_false]
        exact ⟨keys_ensureKey_nodup _ _ h1, keys_ensureKey_nodup _ _ h2,
          by rw [keys_appendKey]; exact keys_ensureKey_nodup _ _ h3⟩

theorem appendContent_keys_nodup (st : ParseState) (src : Source)
    (h1 : (st.chapterElems.map Prod.fst).Nodup)
    (h2 : (st.sectionElems.map Prod.fst).Nodup)
    (h3 : (st.subsectionElems.map Prod.fst).Nodup) :
    ((appendContent st src).chapterElems.map Prod.fst).Nodup ∧
    ((appendContent st src).sectionElems.map Prod.fst).Nodup ∧
    ((appendContent st src).subsectionElems.map Prod.fst).Nodup := by
  unfold appendContent
  cases st.currentChapter with
  | none => exact ⟨h1, h2, h3⟩
  | some cc =>
      cases st.currentSubsection with
      | some cu =>
          cases st.currentSection with
          | some cs => exact ⟨h1, h2, by rw [keys_appendIfKey]; exact h3⟩
          | none => exact ⟨h1, h2, h3⟩
      | none =>
          cases st.currentSection with
          | some cs => exact ⟨h1, by rw [keys_appendIfKey]; exact h2, h3⟩
          | none => exact ⟨by rw [keys_appendIfKey]; exact h1, h2, h3⟩

/-- C9: in every successful run, each of the three node maps has pairwise
distinct keys (one node per confirmed key), and every node's content list
is a sublist of the input stream's elements in order — content appears in
original document order regardless of interleaved rejected candidates. -/
theorem claim_C9 (expected : List ExpectedEntry) (exc : List (String × String))
    (stream : List Source) (st : ParseState)
    (h : parse_document_structure expected exc stream = some st) :
    ((st.chapterElems.map Prod.fst).Nodup ∧ (st.sectionElems.map Prod.fst).Nodup ∧
      (st.subsectionElems.map Prod.fst).Nodup) ∧
    (∀ (key : Nat) (l : List Entry), lookupKey st.chapterElems key = some l →
        l.Sublist (stream.map entryOf)) ∧
    (∀ (key : Nat × Nat) (l : List Entry), lookupKey st.sectionElems key = some l →
        l.Sublist (stream.map entryOf)) ∧
    (∀ (key : Nat × Nat × Nat) (l : List Entry),
        lookupKey st.subsectionElems key = some l → l.Sublist (stream.map entryOf)) := by
  have hstep : ∀ (s1 : ParseState) (a : Source) (s2 : ParseState) (pre : List Source),
      step expected exc s1 a = some s2 →
      (((s1.chapterElems.map Prod.fst).Nodup ∧ (s1.sectionElems.map Prod.fst).Nodup ∧
         (s1.subsectionElems.map Prod.fst).Nodup) ∧
       (∀ (key : Nat) (l : List Entry), lookupKey s1.chapterElems key = some l →
           l.Sublist (pre.map entryOf)) ∧
       (∀ (key : Nat × Nat) (l : List Entry), lookupKey s1.sectionElems key = some l →
           l.Sublist (pre.map entryOf)) ∧
       (∀ (key : Nat × Nat × Nat) (l : List Entry),
           lookupKey s1.subsectionElems key = some l → l.Sublist (pre.map entryOf))) →
      (((s2.chapterElems.map Prod.fst).Nodup ∧ (s2.sectionElems.map Prod.fst).Nodup ∧
         (s2.subsectionElems.map Prod.fst).Nodup) ∧
       (∀ (key : Nat) (l : List Entry), lookupKey s2.chapterElems key = some l →
           l.Sublist ((pre ++ [a]).map entryOf)) ∧
       (∀ (key : Nat × Nat) (l : List Entry), lookupKey s2.sectionElems key = some l →
           l.Sublist ((pre ++ [a]).map entryOf)) ∧
       (∀ (key : Nat × Nat × Nat) (l : List Entry),
           lookupKey s2.subsectionElems key = some l →
           l.Sublist ((pre ++ [a]).map entryOf))) := by
    intro s1 a s2 pre hs hInv
    obtain ⟨⟨hn1, hn2, hn3⟩, hsub1, hsub2, hsub3⟩ := hInv
    have hmap : (pre ++ [a]).map entryOf = pre.map entryOf ++ [entryOf a] := by simp
    rw [hmap]
    rcases step_shape expected exc s1 a s2 hs with h1 | h1 | ⟨c, s, ss, ei, _, _, hpr, h1⟩
    · subst h1
      exact ⟨appendContent_keys_nodup s1 a hn1 hn2 hn3,
        appendContent_inv s1 a (pre.map entryOf) hsub1 hsub2 hsub3⟩
    · subst h1
      exact ⟨⟨hn1, hn2, hn3⟩,
        sublist_lookup_weaken _ _ _ hsub1, sublist_lookup_weaken _ _ _ hsub2,
        sublist_lookup_weaken _ _ _ hsub3⟩
    · subst h1
      obtain ⟨pr, hp⟩ := hpr
      have hent := headingEntry_eq_entryOf a pr hp
      exact ⟨acceptHeading_keys_nodup _ c s ss a hn1 hn2 hn3,
        acceptHeading_inv _ c s ss a (pre.map entryOf) hent hsub1 hsub2 hsub3⟩
  have hinit :
      (((initState.chapterElems.map Prod.fst).Nodup ∧
        (initState.sectionElems.map Prod.fst).Nodup ∧
        (initState.subsectionElems.map Prod.fst).Nodup) ∧
       (∀ (key : Nat) (l : List Entry), lookupKey initState.chapterElems key = some l →
           l.Sublist (([] : List Source).map entryOf)) ∧
       (∀ (key : Nat × Nat) (l : List Entry),
           lookupKey initState.sectionElems key = some l →
           l.Sublist (([] : List Source).map entryOf)) ∧
       (∀ (key : Nat × Nat × Nat) (l : List Entry),
           lookupKey initState.subsectionElems key = some l →
           l.Sublist (([] : List Source).map entryOf))) := by
    refine ⟨⟨List.nodup_nil, List.nodup_nil, List.nodup_nil⟩, ?_, ?_, ?_⟩ <;>
      intro key l hl <;> cases hl
  have hall := foldlM_option_inv_pre (step expected exc)
    (fun s pre =>
      ((s.chapterElems.map Prod.fst).Nodup ∧ (s.sectionElems.map Prod.fst).Nodup ∧
        (s.subsectionElems.map Prod.fst).Nodup) ∧
      (∀ (key : Nat) (l : List Entry), lookupKey s.chapterElems key = some l →
          l.Sublist (pre.map entryOf)) ∧
      (∀ (key : Nat × Nat) (l : List Entry), lookupKey s.sectionElems key = some l →
          l.Sublist (pre.map entryOf)) ∧
      (∀ (key : Nat × Nat × Nat) (l : List Entry),
          lookupKey s.subsectionElems key = some l → l.Sublist (pre.map entryOf)))
    hstep stream [] initState st h hinit
  simpa using hall

/-- Witness for C9 on the concrete C3 run. -/
theorem claim_C9_witness :
    ((stC3fin.chapterElems.map Prod.fst).Nodup ∧
      (stC3fin.sectionElems.map Prod.fst).Nodup ∧
      (stC3fin.subsectionElems.map Prod.fst).Nodup) ∧
    (∀ (key : Nat) (l : List Entry), lookupKey stC3fin.chapterElems key = some l →
        l.Sublist (streamC3.map entryOf)) ∧
    (∀ (key : Nat × Nat) (l : List Entry), lookupKey stC3fin.sectionElems key = some l →
        l.Sublist (streamC3.map entryOf)) ∧
    (∀ (key : Nat × Nat × Nat) (l : List Entry),
        lookupKey stC3fin.subsectionElems key = some l →
        l.Sublist (streamC3.map entryOf)) :=
  claim_C9 expC3 [] streamC3 stC3fin (by decide)

end BuildBook
